import Mathlib

/-!
Shallow embedding of `openwater/catchments.py` (class `SemiLumpedCatchment`):
the model-provider resolver `model_for`, the template builder `get_template`,
and the network linker `link_catchments`, together with the external
collaborators they use (`OWTemplate`, `OWLink`, the node registry
`openwater.nodes`, and the caller-owned network graph), which are modelled
from the spec where their code is not part of this repository.
-/

namespace Openwater

/-- A concrete model identifier.  Modelled from the spec: the node registry
(`openwater.nodes`, not part of this repository) exposes abstract named model
identifiers, each carrying a stable display name used in label construction.
A registry entry is an attribute of the `openwater.nodes` namespace
(`n.Simhyd`, `n.Muskingum`, ...), so its display name is a Python
identifier and in particular never contains a percent character; the
`hname` field carries that registry invariant. -/
structure Model where
  mname : String
  hname : '%' ∉ mname.data
deriving DecidableEq

/-- Modelled from the spec: the registry entry `n.Simhyd` (runoff model). -/
def Simhyd : Model := ⟨"Simhyd", by decide⟩

/-- Modelled from the spec: the registry entry `n.EmcDwc` (constituent generation). -/
def EmcDwc : Model := ⟨"EmcDwc", by decide⟩

/-- Modelled from the spec: the registry entry `n.Muskingum` (flow routing). -/
def Muskingum : Model := ⟨"Muskingum", by decide⟩

/-- Modelled from the spec: the registry entry `n.LumpedConstituentRouting`
(constituent transport). -/
def LumpedConstituentRouting : Model := ⟨"LumpedConstituentRouting", by decide⟩

/-- Modelled from the spec: the registry entry `n.DepthToRate` (areal scaling),
used directly by `get_template` for the three scaling nodes. -/
def DepthToRate : Model := ⟨"DepthToRate", by decide⟩

/-- Python exception values that the embedded code can raise.  `keyError` is a
missing-key lookup on a mapping, `indexError` an out-of-range index,
`typeError` a formatting of a non-numeric value by `%d` or a format string
with too few arguments, `valueError` an unsupported format character,
`attributeError` a missing attribute.  `resolutionError` and
`structureError` are the error kinds named by the spec; they are included so
that statements about them can be made, whether or not the code ever
produces them. -/
inductive PyExc where
  | keyError (key : String)
  | indexError (msg : String)
  | typeError (msg : String)
  | valueError (msg : String)
  | attributeError (attr : String)
  | resolutionError (msg : String)
  | structureError (msg : String)
deriving DecidableEq, Repr

/-- Whether an exception is the spec's `ResolutionError`. -/
def PyExc.isResolutionError : PyExc → Bool
  | .resolutionError _ => true
  | _ => false

/-- Whether an exception is the spec's `StructureError`. -/
def PyExc.isStructureError : PyExc → Bool
  | .structureError _ => true
  | _ => false

/-- A model provider as passed in a `SemiLumpedCatchment` slot.  The Python
code distinguishes the three shapes by duck typing (`__call__`, then
`__getitem__`, else the value itself); the embedding carries the same three
shapes as a tagged variant, exactly as the spec describes the polymorphism.
A callable may raise, so `fn` returns in `Except`. -/
inductive Provider where
  | fixed (m : Model)
  | fn (f : List String → Except PyExc Model)
  | map (entries : List (String × Model))

/-- Attribute access `provider.name`: only a fixed model identifier carries a
display name; on the other shapes Python raises `AttributeError`. -/
def Provider.displayName : Provider → Except PyExc String
  | .fixed m => .ok m.mname
  | .fn _ => .error (.attributeError "name")
  | .map _ => .error (.attributeError "name")

/-- A node of a catchment Template, identified by its model, its process role
label and its keyword parameters (in keyword order, as `add_node` receives
them). -/
structure Node where
  model : Model
  process : String
  params : List (String × String)
deriving DecidableEq

/-- A directed link between named ports of two nodes, `OWLink` in the code. -/
structure OWLink where
  source : Node
  sourcePort : String
  target : Node
  targetPort : String
deriving DecidableEq

/-- A catchment Template: its nodes and links, `OWTemplate` in the code
(modelled from the spec: `OWTemplate` itself is not part of this repository;
`add_node` is idempotent on identical node identity and `add_link` appends). -/
structure OWTemplate where
  nodes : List Node
  links : List OWLink
deriving DecidableEq

/-- The empty template `OWTemplate()`. -/
def OWTemplate.empty : OWTemplate := ⟨[], []⟩

/-- `template.add_node(model, process=..., **kwargs)`.  Modelled from the
spec: adding a node with an identity already present is a no-op returning the
existing handle (a node handle is its identity here). -/
def OWTemplate.add_node (t : OWTemplate) (nd : Node) : OWTemplate :=
  if nd ∈ t.nodes then t else { t with nodes := t.nodes ++ [nd] }

/-- `template.add_link(OWLink(...))`.  Modelled from the spec: appends. -/
def OWTemplate.add_link (t : OWTemplate) (l : OWLink) : OWTemplate :=
  { t with links := t.links ++ [l] }

/-- The catchment descriptor: the attributes a `SemiLumpedCatchment` instance
carries.  `cgu_hrus` is a Python dict, embedded as its item list in insertion
order; `routing` is used directly as a node model and via its display name. -/
structure SemiLumpedCatchment where
  hrus : List String
  cgus : List String
  cgu_hrus : List (String × String)
  constituents : List String
  rr : Provider
  cg : Provider
  routing : Model
  transport : Provider

/-- The descriptor built by `SemiLumpedCatchment.__init__`. -/
def defaultCatchment : SemiLumpedCatchment :=
  { hrus := ["HRU"]
    cgus := ["CGU"]
    cgu_hrus := [("CGU", "HRU")]
    constituents := ["Con"]
    rr := .fixed Simhyd
    cg := .fixed EmcDwc
    routing := Muskingum
    transport := .fixed LumpedConstituentRouting }

/-- `SemiLumpedCatchment.model_for(provider, *args)`: if the provider is
callable, call it with all the arguments; else if it is subscriptable, index
it by the first argument (`args[0]`, an `IndexError` when there are none, a
`KeyError` when the key is absent); else return the provider itself. -/
def model_for (provider : Provider) (args : List String) : Except PyExc Model :=
  match provider with
  | .fn f => f args
  | .map entries =>
    match args with
    | [] => .error (.indexError "tuple index out of range")
    | key :: _ =>
      match entries.lookup key with
      | some m => .ok m
      | none => .error (.keyError key)
  | .fixed m => .ok m

/-- The constituent-loop of `get_template`: for each constituent add a
transport node (model resolved per constituent), link the routing node's
`outflow` to the transport node's `outflow`, and record the transport node
keyed by the constituent (the `transport` dict, as an association list in
insertion order). -/
def transportLoop (tp : Provider) (routing_node : Node) :
    OWTemplate → List String → Except PyExc (OWTemplate × List (String × Node))
  | t, [] => .ok (t, [])
  | t, con :: rest =>
    match model_for tp [con] with
    | .error e => .error e
    | .ok m =>
      let transport_node : Node := ⟨m, "ConstituentRouting", [("constituent", con)]⟩
      let t := t.add_node transport_node
      let t := t.add_link ⟨routing_node, "outflow", transport_node, "outflow"⟩
      match transportLoop tp routing_node t rest with
      | .error e => .error e
      | .ok (t, assoc) => .ok (t, (con, transport_node) :: assoc)

/-- The source-unit loop of `get_template`: for each source unit mapped to the
current response unit, add a generation node (model resolved per constituent
and source unit) and its three links. -/
def genLoop (cg : Provider) (quickflow_scale_node baseflow_scale_node transport_node : Node)
    (con : String) : OWTemplate → List String → Except PyExc OWTemplate
  | t, [] => .ok t
  | t, cgu :: rest =>
    match model_for cg [con, cgu] with
    | .error e => .error e
    | .ok m =>
      let gen_node : Node := ⟨m, "ConstituentGeneration", [("constituent", con), ("lu", cgu)]⟩
      let t := t.add_node gen_node
      let t := t.add_link ⟨quickflow_scale_node, "outflow", gen_node, "quickflow"⟩
      let t := t.add_link ⟨baseflow_scale_node, "outflow", gen_node, "baseflow"⟩
      let t := t.add_link ⟨gen_node, "totalLoad", transport_node, "lateralLoad"⟩
      genLoop cg quickflow_scale_node baseflow_scale_node transport_node con t rest

/-- The inner constituent loop of the response-unit loop of `get_template`:
look up the transport node for the constituent (a dict lookup), link the
runoff-scale node's `outflow` to its `inflow`, then run the source-unit loop
over the source units whose mapped response unit equals `hru`. -/
def conLoop (cg : Provider) (cgu_hrus : List (String × String))
    (runoff_scale_node quickflow_scale_node baseflow_scale_node : Node)
    (hru : String) (transport : List (String × Node)) :
    OWTemplate → List String → Except PyExc OWTemplate
  | t, [] => .ok t
  | t, con :: rest =>
    match transport.lookup con with
    | none => .error (.keyError con)
    | some transport_node =>
      let t := t.add_link ⟨runoff_scale_node, "outflow", transport_node, "inflow"⟩
      match genLoop cg quickflow_scale_node baseflow_scale_node transport_node con t
          ((cgu_hrus.filter (fun p => p.2 == hru)).map (·.1)) with
      | .error e => .error e
      | .ok t =>
        conLoop cg cgu_hrus runoff_scale_node quickflow_scale_node baseflow_scale_node hru
          transport t rest

/-- The response-unit loop of `get_template`: for each response unit add the
runoff node (model resolved per unit) and the three areal-scaling nodes, the
three runoff-to-scale links and the lateral link into the routing node, then
run the inner constituent loop. -/
def hruLoop (rr cg : Provider) (cgu_hrus : List (String × String))
    (constituents : List String) (routing_node : Node) (transport : List (String × Node)) :
    OWTemplate → List String → Except PyExc OWTemplate
  | t, [] => .ok t
  | t, hru :: rest =>
    match model_for rr [hru] with
    | .error e => .error e
    | .ok m =>
      let runoff_node : Node := ⟨m, "RR", [("hru", hru)]⟩
      let t := t.add_node runoff_node
      let runoff_scale_node : Node := ⟨DepthToRate, "ArealScale", [("hru", hru), ("component", "Runoff")]⟩
      let t := t.add_node runoff_scale_node
      let quickflow_scale_node : Node := ⟨DepthToRate, "ArealScale", [("hru", hru), ("component", "Quickflow")]⟩
      let t := t.add_node quickflow_scale_node
      let baseflow_scale_node : Node := ⟨DepthToRate, "ArealScale", [("hru", hru), ("component", "Baseflow")]⟩
      let t := t.add_node baseflow_scale_node
      let t := t.add_link ⟨runoff_node, "runoff", runoff_scale_node, "input"⟩
      let t := t.add_link ⟨runoff_node, "quickflow", quickflow_scale_node, "input"⟩
      let t := t.add_link ⟨runoff_node, "baseflow", baseflow_scale_node, "input"⟩
      let t := t.add_link ⟨runoff_scale_node, "outflow", routing_node, "lateral"⟩
      match conLoop cg cgu_hrus runoff_scale_node quickflow_scale_node baseflow_scale_node hru
          transport t constituents with
      | .error e => .error e
      | .ok t => hruLoop rr cg cgu_hrus constituents routing_node transport t rest

/-- `SemiLumpedCatchment.get_template`: build the Template of one catchment.
Exceptions raised by model resolution propagate to the caller. -/
def get_template (c : SemiLumpedCatchment) : Except PyExc OWTemplate :=
  let t := OWTemplate.empty
  let routing_node : Node := ⟨c.routing, "FlowRouting", []⟩
  let t := t.add_node routing_node
  match transportLoop c.transport routing_node t c.constituents with
  | .error e => .error e
  | .ok (t, transport) =>
    hruLoop c.rr c.cg c.cgu_hrus c.constituents routing_node transport t c.hrus

/-- A catchment identifier as passed to `link_catchments`: Python is untyped,
so it may be an integer or a string. -/
inductive CatchmentId where
  | int (n : Int)
  | str (s : String)
deriving DecidableEq, Repr

/-- Python `str(v)` for the values a catchment identifier can take. -/
def pyStrOf : CatchmentId → String
  | .int n => toString n
  | .str s => s

/-- The scanner of Python `fmt % v` for a single (non-tuple) argument: copy
ordinary characters; `%%` emits a literal percent; `%d` consumes the
argument, requiring a number (`TypeError` on a string); `%s` consumes the
argument and emits its `str`; a conversion when the argument is already
consumed is a `TypeError` (not enough arguments), and a leftover argument at
the end is a `TypeError` (not all arguments converted).  Python's further
conversion machinery (flags, width, precision, other conversion types) is
conservatively modelled as the unsupported-format-character `ValueError`;
every theorem below applies formatting only to templates whose remainder is
percent-free or to the concrete counterexample input, where this scanner
agrees with Python exactly. -/
def percentFormatAux : List Char → Option CatchmentId → List Char → Except PyExc (List Char)
  | [], arg, acc =>
    match arg with
    | some _ => .error (.typeError "not all arguments converted during string formatting")
    | none => .ok acc
  | c :: rest, arg, acc =>
    if c = '%' then
      match rest with
      | [] => .error (.valueError "incomplete format")
      | d :: rest2 =>
        if d = '%' then percentFormatAux rest2 arg (acc ++ ['%'])
        else if d = 'd' then
          match arg with
          | none => .error (.typeError "not enough arguments for format string")
          | some (.int n) => percentFormatAux rest2 none (acc ++ (toString n).data)
          | some (.str _) => .error (.typeError "%d format: a number is required, not str")
        else if d = 's' then
          match arg with
          | none => .error (.typeError "not enough arguments for format string")
          | some v => percentFormatAux rest2 none (acc ++ (pyStrOf v).data)
        else .error (.valueError "unsupported format character")
    else percentFormatAux rest arg (acc ++ [c])

/-- Python `fmt % v` for a single int-or-string argument. -/
def percentFormat (fmt : String) (v : CatchmentId) : Except PyExc String :=
  match percentFormatAux fmt.data (some v) [] with
  | .ok cs => .ok (String.mk cs)
  | .error e => .error e

/-- An edge of the caller-owned network graph, as `graph.add_edge(src_node,
dest_node, src=[src], dest=[dest])` records it. -/
structure Edge where
  src : String
  dest : String
  srcPorts : List String
  destPorts : List String
deriving DecidableEq, Repr

/-- The loop of `link_catchments`: for each linkage, `%`-format the label
template against the upstream id (`dest_node`, computed first) and against
the downstream id (`src_node`), then add the edge to the graph.  An
exception leaves the graph as mutated so far, which the error value
carries. -/
def linkLoop (upstream downstream : CatchmentId) :
    List Edge → List (String × String × String) → Except (PyExc × List Edge) (List Edge)
  | graph, [] => .ok graph
  | graph, (lt, src, dest) :: rest =>
    match percentFormat lt upstream with
    | .error e => .error (e, graph)
    | .ok dest_node =>
      match percentFormat lt downstream with
      | .error e => .error (e, graph)
      | .ok src_node =>
        linkLoop upstream downstream (graph ++ [⟨src_node, dest_node, [src], [dest]⟩]) rest

/-- The list comprehension building the per-constituent load linkages: for
each constituent, read the transport model's display name (an
`AttributeError` if the transport slot has none) and `%`-format the template
`%%d-ConstituentRouting-%s (name)` with the constituent, yielding the
second-stage template `%d-ConstituentRouting-con (name)`.  The constituent's
own characters are substituted by `%s` and are not rescanned in this first
stage, exactly as in Python. -/
def buildLinkages (tp : Provider) : List String → Except PyExc (List (String × String × String))
  | [] => .ok []
  | con :: rest =>
    match tp.displayName with
    | .error e => .error e
    | .ok tn =>
      match percentFormat ("%%d-ConstituentRouting-%s (" ++ tn ++ ")") (.str con) with
      | .error e => .error e
      | .ok lt =>
        match buildLinkages tp rest with
        | .error e => .error e
        | .ok xs => .ok ((lt, "outflowLoad", "inflowLoad") :: xs)

/-- `SemiLumpedCatchment.link_catchments(graph, upstream, downstream)`: build
the linkage list — the flow linkage with the routing model's display name,
then the comprehension over constituents — and run the loop.  An exception
during linkage construction propagates before any edge is added. -/
def link_catchments (c : SemiLumpedCatchment) (graph : List Edge)
    (upstream downstream : CatchmentId) : Except (PyExc × List Edge) (List Edge) :=
  match buildLinkages c.transport c.constituents with
  | .error e => .error (e, graph)
  | .ok loads =>
    linkLoop upstream downstream graph
      (("%d-FlowRouting (" ++ c.routing.mname ++ ")", "outflow", "inflow") :: loads)

/-! ## Derived characterization of the built Template

The following definitions name, for each descriptor, the nodes and links that
`get_template` actually constructs; the characterization lemmas below prove
the correspondence.  `resolved` reads the model out of a successful
resolution (its value at a failed one is irrelevant: the lemmas require the
resolution to succeed). -/

/-- The model a successful resolution produced. -/
def resolved (e : Except PyExc Model) : Model :=
  match e with
  | .ok m => m
  | .error _ => ⟨"", by decide⟩

/-- The routing node built from a routing model. -/
def routingNode (routing : Model) : Node := ⟨routing, "FlowRouting", []⟩

/-- The transport node of a constituent. -/
def transportNode (tp : Provider) (con : String) : Node :=
  ⟨resolved (model_for tp [con]), "ConstituentRouting", [("constituent", con)]⟩

/-- The runoff node of a response unit. -/
def runoffNode (rr : Provider) (hru : String) : Node :=
  ⟨resolved (model_for rr [hru]), "RR", [("hru", hru)]⟩

/-- An areal-scaling node of a response unit. -/
def scaleNode (hru component : String) : Node :=
  ⟨DepthToRate, "ArealScale", [("hru", hru), ("component", component)]⟩

/-- The generation node of a constituent and source unit. -/
def genNode (cg : Provider) (con cgu : String) : Node :=
  ⟨resolved (model_for cg [con, cgu]), "ConstituentGeneration", [("constituent", con), ("lu", cgu)]⟩

/-- The source units mapped to a given response unit, in mapping order. -/
def mappedCgus (cgu_hrus : List (String × String)) (hru : String) : List String :=
  (cgu_hrus.filter (fun p => p.2 == hru)).map (·.1)

/-- The generation links of one (response unit, constituent, source unit). -/
def genLinks (cg tp : Provider) (hru con cgu : String) : List OWLink :=
  [⟨scaleNode hru "Quickflow", "outflow", genNode cg con cgu, "quickflow"⟩,
   ⟨scaleNode hru "Baseflow", "outflow", genNode cg con cgu, "baseflow"⟩,
   ⟨genNode cg con cgu, "totalLoad", transportNode tp con, "lateralLoad"⟩]

/-- The nodes contributed by one response unit, in construction order. -/
def hruNodes (rr cg : Provider) (cgu_hrus : List (String × String))
    (constituents : List String) (hru : String) : List Node :=
  [runoffNode rr hru, scaleNode hru "Runoff", scaleNode hru "Quickflow", scaleNode hru "Baseflow"]
    ++ constituents.flatMap (fun con => (mappedCgus cgu_hrus hru).map (genNode cg con))

/-- The links contributed by one response unit, in construction order. -/
def hruLinks (rr cg tp : Provider) (cgu_hrus : List (String × String))
    (constituents : List String) (routing : Model) (hru : String) : List OWLink :=
  [⟨runoffNode rr hru, "runoff", scaleNode hru "Runoff", "input"⟩,
   ⟨runoffNode rr hru, "quickflow", scaleNode hru "Quickflow", "input"⟩,
   ⟨runoffNode rr hru, "baseflow", scaleNode hru "Baseflow", "input"⟩,
   ⟨scaleNode hru "Runoff", "outflow", routingNode routing, "lateral"⟩]
    ++ constituents.flatMap (fun con =>
        ⟨scaleNode hru "Runoff", "outflow", transportNode tp con, "inflow"⟩ ::
          (mappedCgus cgu_hrus hru).flatMap (genLinks cg tp hru con))

/-- All nodes of the template, in construction order. -/
def expectedNodes (c : SemiLumpedCatchment) : List Node :=
  routingNode c.routing ::
    (c.constituents.map (transportNode c.transport)
      ++ c.hrus.flatMap (hruNodes c.rr c.cg c.cgu_hrus c.constituents))

/-- All links of the template, in construction order. -/
def expectedLinks (c : SemiLumpedCatchment) : List OWLink :=
  c.constituents.map
      (fun con => ⟨routingNode c.routing, "outflow", transportNode c.transport con, "outflow"⟩)
    ++ c.hrus.flatMap (hruLinks c.rr c.cg c.transport c.cgu_hrus c.constituents c.routing)

/-- A resolution that succeeded. -/
def resOk (e : Except PyExc Model) : Prop := ∃ m, e = Except.ok m

/-- Freshness of a node with respect to a response unit: the node is none of
the nodes that the response-unit iteration for `h` would add. -/
def hruFresh (cgu_hrus : List (String × String)) (h : String) (nd : Node) : Prop :=
  (¬(nd.process = "RR" ∧ nd.params = [("hru", h)])) ∧
  (∀ comp, ¬(nd.process = "ArealScale" ∧ nd.params = [("hru", h), ("component", comp)])) ∧
  (∀ con cgu, cgu ∈ mappedCgus cgu_hrus h →
    ¬(nd.process = "ConstituentGeneration" ∧ nd.params = [("constituent", con), ("lu", cgu)]))

/-- The spec's resolution rule, written from its words: if the provider is
invocable return `provider(*keys)`; else if it supports keyed lookup return
`provider[keys[0]]`; else return the provider unchanged. -/
def resolveSpec (provider : Provider) (keys : List String) : Except PyExc Model :=
  match provider with
  | .fn f => f keys
  | .map entries =>
    match keys.head? with
    | none => .error (.indexError "tuple index out of range")
    | some key =>
      match entries.lookup key with
      | some m => .ok m
      | none => .error (.keyError key)
  | .fixed m => .ok m

/-- The end-to-end scenario descriptor of the spec: response units `[H1]`,
source units `S1` mapped to `H1`, constituents `[N]`, the default models. -/
def cEndToEnd : SemiLumpedCatchment :=
  { hrus := ["H1"]
    cgus := ["S1"]
    cgu_hrus := [("S1", "H1")]
    constituents := ["N"]
    rr := .fixed Simhyd
    cg := .fixed EmcDwc
    routing := Muskingum
    transport := .fixed LumpedConstituentRouting }

/-- A descriptor with a dangling mapping: `S1` is mapped to `H2`, which is
not in the response-unit set `[H1]`. -/
def cDangling : SemiLumpedCatchment :=
  { hrus := ["H1"]
    cgus := ["S1"]
    cgu_hrus := [("S1", "H2")]
    constituents := ["N"]
    rr := .fixed Simhyd
    cg := .fixed EmcDwc
    routing := Muskingum
    transport := .fixed LumpedConstituentRouting }

/-- A descriptor with two constituents, one response unit and one source
unit, all mappings valid. -/
def cTwoCons : SemiLumpedCatchment :=
  { hrus := ["H1"]
    cgus := ["S1"]
    cgu_hrus := [("S1", "H1")]
    constituents := ["N", "P"]
    rr := .fixed Simhyd
    cg := .fixed EmcDwc
    routing := Muskingum
    transport := .fixed LumpedConstituentRouting }

/-- A descriptor whose single constituent identifier contains a `%d`
conversion specifier. -/
def cPercent : SemiLumpedCatchment :=
  { hrus := ["H1"]
    cgus := ["S1"]
    cgu_hrus := [("S1", "H1")]
    constituents := ["N%d"]
    rr := .fixed Simhyd
    cg := .fixed EmcDwc
    routing := Muskingum
    transport := .fixed LumpedConstituentRouting }

/-- A descriptor with a validly mapped source unit but no constituents. -/
def cNoCon : SemiLumpedCatchment :=
  { hrus := ["H1"]
    cgus := ["S1"]
    cgu_hrus := [("S1", "H1")]
    constituents := []
    rr := .fixed Simhyd
    cg := .fixed EmcDwc
    routing := Muskingum
    transport := .fixed LumpedConstituentRouting }

/-- The edges `link_catchments` adds for numeric identifiers: the flow
linkage, then one load linkage per constituent, each from the label resolved
against the downstream id to the label resolved against the upstream id. -/
def linkEdges (c : SemiLumpedCatchment) (tm : Model) (upstream downstream : Int) : List Edge :=
  ⟨toString downstream ++ "-FlowRouting (" ++ c.routing.mname ++ ")",
   toString upstream ++ "-FlowRouting (" ++ c.routing.mname ++ ")",
   ["outflow"], ["inflow"]⟩ ::
  c.constituents.map (fun con =>
    ⟨toString downstream ++ "-ConstituentRouting-" ++ con ++ " (" ++ tm.mname ++ ")",
     toString upstream ++ "-ConstituentRouting-" ++ con ++ " (" ++ tm.mname ++ ")",
     ["outflowLoad"], ["inflowLoad"]⟩)

/-- Whether a link feeds the routing node's `lateral` input port. -/
def isLateralInto (l : OWLink) : Bool :=
  l.target.process == "FlowRouting" && l.targetPort == "lateral"

/-- Whether a link feeds the `inflow` port of the transport node of `con`. -/
def isInflowInto (con : String) (l : OWLink) : Bool :=
  l.target.process == "ConstituentRouting" && l.target.params == [("constituent", con)] &&
    l.targetPort == "inflow"

/-- Whether a link feeds the `lateralLoad` port of the transport node of `con`. -/
def isLoadInto (con : String) (l : OWLink) : Bool :=
  l.target.process == "ConstituentRouting" && l.target.params == [("constituent", con)] &&
    l.targetPort == "lateralLoad"

/-- A descriptor with every collection empty. -/
def cEmpty : SemiLumpedCatchment :=
  { hrus := []
    cgus := []
    cgu_hrus := []
    constituents := []
    rr := .fixed Simhyd
    cg := .fixed EmcDwc
    routing := Muskingum
    transport := .fixed LumpedConstituentRouting }

theorem resolved_of_ok {e : Except PyExc Model} {m : Model} (h : e = Except.ok m) :
    resolved e = m := by
  rw [h]; rfl

theorem lookup_map_graph (f : String → Node) :
    ∀ (l : List String) (a : String), a ∈ l →
      (l.map (fun x => (x, f x))).lookup a = some (f a) := by
  intro l
  induction l with
  | nil => intro a ha; cases ha
  | cons x xs ih =>
    intro a ha
    by_cases hax : a = x
    · subst hax
      simp [List.lookup]
    · have : a ∈ xs := by
        rcases List.mem_cons.mp ha with h | h
        · exact absurd h hax
        · exact h
      have hbeq : (a == x) = false := beq_eq_false_iff_ne.mpr hax
      simp [List.lookup, hbeq, ih a this]

theorem value_eq_of_keysNodup :
    ∀ (l : List (String × String)), (l.map Prod.fst).Nodup →
      ∀ {k v v' : String}, (k, v) ∈ l → (k, v') ∈ l → v = v' := by
  intro l
  induction l with
  | nil => intro _ k v v' h; cases h
  | cons p ps ih =>
    intro hnd k v v' hv hv'
    have hnd' : (ps.map Prod.fst).Nodup := (List.nodup_cons.mp hnd).2
    have hknot : p.1 ∉ ps.map Prod.fst := (List.nodup_cons.mp hnd).1
    rcases List.mem_cons.mp hv with h1 | h1 <;> rcases List.mem_cons.mp hv' with h2 | h2
    · have h12 : (k, v) = (k, v') := h1.trans h2.symm
      simp at h12
      exact h12
    · exfalso
      apply hknot
      have hk : k = p.1 := congrArg Prod.fst h1
      rw [← hk]
      exact List.mem_map.mpr ⟨(k, v'), h2, rfl⟩
    · exfalso
      apply hknot
      have hk : k = p.1 := congrArg Prod.fst h2
      rw [← hk]
      exact List.mem_map.mpr ⟨(k, v), h1, rfl⟩
    · exact ih hnd' h1 h2

theorem mem_mappedCgus {m : List (String × String)} {cgu hru : String} :
    cgu ∈ mappedCgus m hru ↔ (cgu, hru) ∈ m := by
  constructor
  · intro h
    simp only [mappedCgus, List.mem_map, List.mem_filter] at h
    obtain ⟨p, ⟨hp, hph⟩, hp1⟩ := h
    have h2 : p.2 = hru := by simpa using hph
    have : p = (cgu, hru) := by
      cases p
      simp_all
    rwa [this] at hp
  · intro h
    simp only [mappedCgus, List.mem_map, List.mem_filter]
    exact ⟨(cgu, hru), ⟨h, by simp⟩, rfl⟩

theorem mappedCgus_nodup {m : List (String × String)} (h : (m.map Prod.fst).Nodup)
    (hru : String) : (mappedCgus m hru).Nodup := by
  have hsub : List.Sublist (mappedCgus m hru) (m.map Prod.fst) := by
    have h1 : List.Sublist (m.filter (fun p => p.2 == hru)) m := List.filter_sublist m
    have h2 := h1.map Prod.fst
    simpa [mappedCgus] using h2
  exact h.sublist hsub

theorem mappedCgus_disjoint {m : List (String × String)} (h : (m.map Prod.fst).Nodup)
    {cgu h1 h2 : String} (m1 : cgu ∈ mappedCgus m h1) (m2 : cgu ∈ mappedCgus m h2) :
    h1 = h2 :=
  value_eq_of_keysNodup m h (mem_mappedCgus.mp m1) (mem_mappedCgus.mp m2)

theorem transportLoop_eq (tp : Provider) (rn : Node) (cons : List String) :
    ∀ (t : OWTemplate),
      (∀ con ∈ cons, resOk (model_for tp [con])) →
      (∀ con ∈ cons, ∀ nd ∈ t.nodes,
        ¬(nd.process = "ConstituentRouting" ∧ nd.params = [("constituent", con)])) →
      cons.Nodup →
      transportLoop tp rn t cons =
        .ok ({ nodes := t.nodes ++ cons.map (transportNode tp),
               links := t.links ++ cons.map (fun con =>
                 ⟨rn, "outflow", transportNode tp con, "outflow"⟩) },
             cons.map (fun con => (con, transportNode tp con))) := by
  induction cons with
  | nil => intro t _ _ _; simp [transportLoop]
  | cons con rest ih =>
    intro t hok hfresh hnd
    obtain ⟨m, hm⟩ := hok con (by simp)
    have hres : transportNode tp con = ⟨m, "ConstituentRouting", [("constituent", con)]⟩ := by
      simp [transportNode, resolved_of_ok hm]
    have hnotmem : (⟨m, "ConstituentRouting", [("constituent", con)]⟩ : Node) ∉ t.nodes := by
      intro hmem
      exact hfresh con (by simp) _ hmem ⟨rfl, rfl⟩
    have ht' : (t.add_node ⟨m, "ConstituentRouting", [("constituent", con)]⟩).add_link
        ⟨rn, "outflow", ⟨m, "ConstituentRouting", [("constituent", con)]⟩, "outflow"⟩ =
        ⟨t.nodes ++ [⟨m, "ConstituentRouting", [("constituent", con)]⟩],
         t.links ++ [⟨rn, "outflow", ⟨m, "ConstituentRouting", [("constituent", con)]⟩, "outflow"⟩]⟩ := by
      simp [OWTemplate.add_node, OWTemplate.add_link, hnotmem]
    have hok' : ∀ c ∈ rest, resOk (model_for tp [c]) := fun c hc => hok c (by simp [hc])
    have hfresh' : ∀ c ∈ rest,
        ∀ nd ∈ (OWTemplate.mk (t.nodes ++ [⟨m, "ConstituentRouting", [("constituent", con)]⟩])
          (t.links ++ [⟨rn, "outflow", ⟨m, "ConstituentRouting", [("constituent", con)]⟩, "outflow"⟩])).nodes,
        ¬(nd.process = "ConstituentRouting" ∧ nd.params = [("constituent", c)]) := by
      intro c hc nd hmem hcontra
      rcases List.mem_append.mp hmem with h1 | h1
      · exact hfresh c (by simp [hc]) nd h1 hcontra
      · have : nd = ⟨m, "ConstituentRouting", [("constituent", con)]⟩ := by simpa using h1
        rw [this] at hcontra
        have : con = c := by simpa using hcontra.2
        rw [this] at hnd
        exact (List.nodup_cons.mp hnd).1 hc
    have hnd' : rest.Nodup := (List.nodup_cons.mp hnd).2
    simp only [transportLoop, hm]
    rw [ht', ih _ hok' hfresh' hnd']
    simp [hres, List.append_assoc]

theorem genLoop_eq (cg : Provider) (qs bs tn : Node) (con : String) (cgus : List String) :
    ∀ (t : OWTemplate),
      (∀ cgu ∈ cgus, resOk (model_for cg [con, cgu])) →
      (∀ cgu ∈ cgus, ∀ nd ∈ t.nodes,
        ¬(nd.process = "ConstituentGeneration" ∧
          nd.params = [("constituent", con), ("lu", cgu)])) →
      cgus.Nodup →
      genLoop cg qs bs tn con t cgus =
        .ok { nodes := t.nodes ++ cgus.map (genNode cg con),
              links := t.links ++ cgus.flatMap (fun cgu =>
                [⟨qs, "outflow", genNode cg con cgu, "quickflow"⟩,
                 ⟨bs, "outflow", genNode cg con cgu, "baseflow"⟩,
                 ⟨genNode cg con cgu, "totalLoad", tn, "lateralLoad"⟩]) } := by
  induction cgus with
  | nil => intro t _ _ _; simp [genLoop]
  | cons cgu rest ih =>
    intro t hok hfresh hnd
    obtain ⟨m, hm⟩ := hok cgu (by simp)
    have hres : genNode cg con cgu =
        ⟨m, "ConstituentGeneration", [("constituent", con), ("lu", cgu)]⟩ := by
      simp [genNode, resolved_of_ok hm]
    have hnotmem :
        (⟨m, "ConstituentGeneration", [("constituent", con), ("lu", cgu)]⟩ : Node) ∉ t.nodes := by
      intro hmem
      exact hfresh cgu (by simp) _ hmem ⟨rfl, rfl⟩
    have hok' : ∀ x ∈ rest, resOk (model_for cg [con, x]) := fun x hx => hok x (by simp [hx])
    have hnd' : rest.Nodup := (List.nodup_cons.mp hnd).2
    simp only [genLoop, hm]
    have harg :
        (((t.add_node ⟨m, "ConstituentGeneration", [("constituent", con), ("lu", cgu)]⟩).add_link
          ⟨qs, "outflow", ⟨m, "ConstituentGeneration", [("constituent", con), ("lu", cgu)]⟩, "quickflow"⟩).add_link
          ⟨bs, "outflow", ⟨m, "ConstituentGeneration", [("constituent", con), ("lu", cgu)]⟩, "baseflow"⟩).add_link
          ⟨⟨m, "ConstituentGeneration", [("constituent", con), ("lu", cgu)]⟩, "totalLoad", tn, "lateralLoad"⟩ =
        ⟨t.nodes ++ [⟨m, "ConstituentGeneration", [("constituent", con), ("lu", cgu)]⟩],
         t.links ++
          [⟨qs, "outflow", ⟨m, "ConstituentGeneration", [("constituent", con), ("lu", cgu)]⟩, "quickflow"⟩,
           ⟨bs, "outflow", ⟨m, "ConstituentGeneration", [("constituent", con), ("lu", cgu)]⟩, "baseflow"⟩,
           ⟨⟨m, "ConstituentGeneration", [("constituent", con), ("lu", cgu)]⟩, "totalLoad", tn, "lateralLoad"⟩]⟩ := by
      simp [OWTemplate.add_node, OWTemplate.add_link, hnotmem]
    rw [harg]
    have hfresh' : ∀ x ∈ rest,
        ∀ nd ∈ (OWTemplate.mk
          (t.nodes ++ [⟨m, "ConstituentGeneration", [("constituent", con), ("lu", cgu)]⟩])
          (t.links ++
            [⟨qs, "outflow", ⟨m, "ConstituentGeneration", [("constituent", con), ("lu", cgu)]⟩, "quickflow"⟩,
             ⟨bs, "outflow", ⟨m, "ConstituentGeneration", [("constituent", con), ("lu", cgu)]⟩, "baseflow"⟩,
             ⟨⟨m, "ConstituentGeneration", [("constituent", con), ("lu", cgu)]⟩, "totalLoad", tn, "lateralLoad"⟩])).nodes,
        ¬(nd.process = "ConstituentGeneration" ∧
          nd.params = [("constituent", con), ("lu", x)]) := by
      intro x hx nd hmem hcontra
      rcases List.mem_append.mp hmem with h1 | h1
      · exact hfresh x (by simp [hx]) nd h1 hcontra
      · have hnd1 : nd = ⟨m, "ConstituentGeneration", [("constituent", con), ("lu", cgu)]⟩ := by
          simpa using h1
        rw [hnd1] at hcontra
        have : cgu = x := by simpa using hcontra.2
        rw [this] at hnd
        exact (List.nodup_cons.mp hnd).1 hx
    rw [ih _ hok' hfresh' hnd']
    simp [hres, List.append_assoc]

theorem conLoop_eq (cg tp : Provider) (cgu_hrus : List (String × String))
    (rs qs bs : Node) (hru : String) (constituents : List String) (cons : List String) :
    ∀ (t : OWTemplate),
      (∀ con ∈ cons, con ∈ constituents) →
      (∀ con ∈ cons, ∀ cgu ∈ mappedCgus cgu_hrus hru, resOk (model_for cg [con, cgu])) →
      (∀ con ∈ cons, ∀ cgu ∈ mappedCgus cgu_hrus hru, ∀ nd ∈ t.nodes,
        ¬(nd.process = "ConstituentGeneration" ∧
          nd.params = [("constituent", con), ("lu", cgu)])) →
      cons.Nodup →
      (mappedCgus cgu_hrus hru).Nodup →
      conLoop cg cgu_hrus rs qs bs hru
          (constituents.map (fun x => (x, transportNode tp x))) t cons =
        .ok { nodes := t.nodes ++ cons.flatMap (fun con =>
                (mappedCgus cgu_hrus hru).map (genNode cg con)),
              links := t.links ++ cons.flatMap (fun con =>
                ⟨rs, "outflow", transportNode tp con, "inflow"⟩ ::
                  (mappedCgus cgu_hrus hru).flatMap (fun cgu =>
                    [⟨qs, "outflow", genNode cg con cgu, "quickflow"⟩,
                     ⟨bs, "outflow", genNode cg con cgu, "baseflow"⟩,
                     ⟨genNode cg con cgu, "totalLoad", transportNode tp con, "lateralLoad"⟩])) } := by
  induction cons with
  | nil => intro t _ _ _ _ _; simp [conLoop]
  | cons con rest ih =>
    intro t hsub hok hfresh hnd hndm
    have hlk : (constituents.map (fun x => (x, transportNode tp x))).lookup con =
        some (transportNode tp con) :=
      lookup_map_graph (transportNode tp) constituents con (hsub con (by simp))
    simp only [conLoop, hlk]
    have hokc : ∀ cgu ∈ mappedCgus cgu_hrus hru, resOk (model_for cg [con, cgu]) :=
      hok con (by simp)
    have hfreshc : ∀ cgu ∈ mappedCgus cgu_hrus hru,
        ∀ nd ∈ (t.add_link ⟨rs, "outflow", transportNode tp con, "inflow"⟩).nodes,
        ¬(nd.process = "ConstituentGeneration" ∧
          nd.params = [("constituent", con), ("lu", cgu)]) := by
      intro cgu hcgu nd hmem
      exact hfresh con (by simp) cgu hcgu nd hmem
    have hgen := genLoop_eq cg qs bs (transportNode tp con) con (mappedCgus cgu_hrus hru)
      (t.add_link ⟨rs, "outflow", transportNode tp con, "inflow"⟩) hokc hfreshc hndm
    rw [show ((cgu_hrus.filter (fun p => p.2 == hru)).map (·.1)) = mappedCgus cgu_hrus hru from rfl]
    simp only [hgen]
    have hok' : ∀ x ∈ rest, ∀ cgu ∈ mappedCgus cgu_hrus hru, resOk (model_for cg [x, cgu]) :=
      fun x hx => hok x (by simp [hx])
    have hsub' : ∀ x ∈ rest, x ∈ constituents := fun x hx => hsub x (by simp [hx])
    have hnd' : rest.Nodup := (List.nodup_cons.mp hnd).2
    have hfresh' : ∀ x ∈ rest, ∀ cgu ∈ mappedCgus cgu_hrus hru,
        ∀ nd ∈ (OWTemplate.mk
          ((t.add_link ⟨rs, "outflow", transportNode tp con, "inflow"⟩).nodes ++
            (mappedCgus cgu_hrus hru).map (genNode cg con))
          ((t.add_link ⟨rs, "outflow", transportNode tp con, "inflow"⟩).links ++
            (mappedCgus cgu_hrus hru).flatMap (fun cgu =>
              [⟨qs, "outflow", genNode cg con cgu, "quickflow"⟩,
               ⟨bs, "outflow", genNode cg con cgu, "baseflow"⟩,
               ⟨genNode cg con cgu, "totalLoad", transportNode tp con, "lateralLoad"⟩]))).nodes,
        ¬(nd.process = "ConstituentGeneration" ∧
          nd.params = [("constituent", x), ("lu", cgu)]) := by
      intro x hx cgu hcgu nd hmem hcontra
      rcases List.mem_append.mp hmem with h1 | h1
      · exact hfresh x (by simp [hx]) cgu hcgu nd h1 hcontra
      · obtain ⟨cgu', hcgu', hnd1⟩ := List.mem_map.mp h1
        rw [← hnd1] at hcontra
        have h2 := hcontra.2
        simp only [genNode] at h2
        injection h2 with hh ht
        injection hh with hc1 hc2
        rw [hc2] at hnd
        exact (List.nodup_cons.mp hnd).1 hx
    rw [ih _ hsub' hok' hfresh' hnd' hndm]
    simp [OWTemplate.add_link, List.append_assoc]

theorem hruFresh_runoff {cgu_hrus : List (String × String)} {h h' : String}
    (hne : h ≠ h') (mm : Model) : hruFresh cgu_hrus h' ⟨mm, "RR", [("hru", h)]⟩ := by
  refine ⟨?_, ?_, ?_⟩
  · rintro ⟨-, hp⟩
    simp only [Node.mk.injEq] at hp
    have : h = h' := by simpa using hp
    exact hne this
  · rintro comp ⟨hp, -⟩
    simp at hp
  · rintro con cgu _ ⟨hp, -⟩
    simp at hp

theorem hruFresh_scale {cgu_hrus : List (String × String)} {h h' : String}
    (hne : h ≠ h') (comp : String) : hruFresh cgu_hrus h' (scaleNode h comp) := by
  refine ⟨?_, ?_, ?_⟩
  · rintro ⟨hp, -⟩
    simp [scaleNode] at hp
  · rintro comp' ⟨-, hp⟩
    simp only [scaleNode] at hp
    have : h = h' := by
      have := congrArg (fun l => (l.headI : String × String).2) hp
      simpa using this
    exact hne this
  · rintro con cgu _ ⟨hp, -⟩
    simp [scaleNode] at hp

theorem hruFresh_gen {cgu_hrus : List (String × String)}
    (hkeys : (cgu_hrus.map Prod.fst).Nodup) {h h' : String} (hne : h ≠ h')
    {con cgu : String} (hcgu : cgu ∈ mappedCgus cgu_hrus h) (mm : Model) :
    hruFresh cgu_hrus h' ⟨mm, "ConstituentGeneration", [("constituent", con), ("lu", cgu)]⟩ := by
  refine ⟨?_, ?_, ?_⟩
  · rintro ⟨hp, -⟩
    simp at hp
  · rintro comp ⟨hp, -⟩
    simp at hp
  · rintro con' cgu' hcgu' ⟨-, hp⟩
    simp only [Node.mk.injEq] at hp
    injection hp with h1 h2
    injection h2 with h3 h4
    injection h3 with hlu hcgueq
    rw [← hcgueq] at hcgu'
    exact hne (mappedCgus_disjoint hkeys hcgu hcgu')

theorem hruFresh_of_ne (rr cg : Provider) (cgu_hrus : List (String × String))
    (constituents : List String) {h h' : String}
    (hkeys : (cgu_hrus.map Prod.fst).Nodup) (hne : h ≠ h') :
    ∀ nd ∈ hruNodes rr cg cgu_hrus constituents h, hruFresh cgu_hrus h' nd := by
  intro nd hmem
  rcases List.mem_append.mp hmem with h1 | h1
  · have four : nd = runoffNode rr h ∨ nd = scaleNode h "Runoff" ∨
        nd = scaleNode h "Quickflow" ∨ nd = scaleNode h "Baseflow" := by simpa using h1
    rcases four with h2 | h2 | h2 | h2 <;> subst h2
    · exact hruFresh_runoff hne _
    · exact hruFresh_scale hne _
    · exact hruFresh_scale hne _
    · exact hruFresh_scale hne _
  · obtain ⟨con, hcon, hmem2⟩ := List.mem_flatMap.mp h1
    obtain ⟨cgu, hcgu, hnd⟩ := List.mem_map.mp hmem2
    subst hnd
    exact hruFresh_gen hkeys hne hcgu _

theorem add_node_eq {t : OWTemplate} {nd : Node} (h : nd ∉ t.nodes) :
    t.add_node nd = ⟨t.nodes ++ [nd], t.links⟩ := by
  simp [OWTemplate.add_node, h]

theorem add_link_eq (t : OWTemplate) (l : OWLink) :
    t.add_link l = ⟨t.nodes, t.links ++ [l]⟩ := rfl

theorem hruLoop_eq (rr cg tp : Provider) (cgu_hrus : List (String × String))
    (constituents : List String) (routing : Model)
    (hkeys : (cgu_hrus.map Prod.fst).Nodup) (hcnd : constituents.Nodup)
    (hrus : List String) :
    ∀ (t : OWTemplate),
      (∀ h ∈ hrus, resOk (model_for rr [h])) →
      (∀ h ∈ hrus, ∀ con ∈ constituents, ∀ cgu ∈ mappedCgus cgu_hrus h,
        resOk (model_for cg [con, cgu])) →
      (∀ h ∈ hrus, ∀ nd ∈ t.nodes, hruFresh cgu_hrus h nd) →
      hrus.Nodup →
      hruLoop rr cg cgu_hrus constituents (routingNode routing)
          (constituents.map (fun x => (x, transportNode tp x))) t hrus =
        .ok { nodes := t.nodes ++ hrus.flatMap (hruNodes rr cg cgu_hrus constituents),
              links := t.links ++
                hrus.flatMap (hruLinks rr cg tp cgu_hrus constituents routing) } := by
  induction hrus with
  | nil => intro t _ _ _ _; simp [hruLoop]
  | cons h rest ih =>
    intro t hokr hokg hfresh hnd
    obtain ⟨m, hm⟩ := hokr h (by simp)
    have hmr : runoffNode rr h = ⟨m, "RR", [("hru", h)]⟩ := by
      simp [runoffNode, resolved_of_ok hm]
    have hs1 : (⟨m, "RR", [("hru", h)]⟩ : Node) ∉ t.nodes := fun hmem =>
      (hfresh h (by simp) _ hmem).1 ⟨rfl, rfl⟩
    have hs2 : (⟨DepthToRate, "ArealScale", [("hru", h), ("component", "Runoff")]⟩ : Node) ∉
        t.nodes := fun hmem => (hfresh h (by simp) _ hmem).2.1 "Runoff" ⟨rfl, rfl⟩
    have hs3 : (⟨DepthToRate, "ArealScale", [("hru", h), ("component", "Quickflow")]⟩ : Node) ∉
        t.nodes := fun hmem => (hfresh h (by simp) _ hmem).2.1 "Quickflow" ⟨rfl, rfl⟩
    have hs4 : (⟨DepthToRate, "ArealScale", [("hru", h), ("component", "Baseflow")]⟩ : Node) ∉
        t.nodes := fun hmem => (hfresh h (by simp) _ hmem).2.1 "Baseflow" ⟨rfl, rfl⟩
    have hchain :
        ((((((((t.add_node ⟨m, "RR", [("hru", h)]⟩).add_node
          ⟨DepthToRate, "ArealScale", [("hru", h), ("component", "Runoff")]⟩).add_node
          ⟨DepthToRate, "ArealScale", [("hru", h), ("component", "Quickflow")]⟩).add_node
          ⟨DepthToRate, "ArealScale", [("hru", h), ("component", "Baseflow")]⟩).add_link
          ⟨⟨m, "RR", [("hru", h)]⟩, "runoff",
            ⟨DepthToRate, "ArealScale", [("hru", h), ("component", "Runoff")]⟩, "input"⟩).add_link
          ⟨⟨m, "RR", [("hru", h)]⟩, "quickflow",
            ⟨DepthToRate, "ArealScale", [("hru", h), ("component", "Quickflow")]⟩, "input"⟩).add_link
          ⟨⟨m, "RR", [("hru", h)]⟩, "baseflow",
            ⟨DepthToRate, "ArealScale", [("hru", h), ("component", "Baseflow")]⟩, "input"⟩).add_link
          ⟨⟨DepthToRate, "ArealScale", [("hru", h), ("component", "Runoff")]⟩, "outflow",
            routingNode routing, "lateral"⟩) =
        ⟨t.nodes ++ [⟨m, "RR", [("hru", h)]⟩,
          ⟨DepthToRate, "ArealScale", [("hru", h), ("component", "Runoff")]⟩,
          ⟨DepthToRate, "ArealScale", [("hru", h), ("component", "Quickflow")]⟩,
          ⟨DepthToRate, "ArealScale", [("hru", h), ("component", "Baseflow")]⟩],
         t.links ++ [⟨⟨m, "RR", [("hru", h)]⟩, "runoff",
            ⟨DepthToRate, "ArealScale", [("hru", h), ("component", "Runoff")]⟩, "input"⟩,
          ⟨⟨m, "RR", [("hru", h)]⟩, "quickflow",
            ⟨DepthToRate, "ArealScale", [("hru", h), ("component", "Quickflow")]⟩, "input"⟩,
          ⟨⟨m, "RR", [("hru", h)]⟩, "baseflow",
            ⟨DepthToRate, "ArealScale", [("hru", h), ("component", "Baseflow")]⟩, "input"⟩,
          ⟨⟨DepthToRate, "ArealScale", [("hru", h), ("component", "Runoff")]⟩, "outflow",
            routingNode routing, "lateral"⟩]⟩ := by
      simp [OWTemplate.add_node, OWTemplate.add_link, hs1, hs2, hs3, hs4]
    have hfreshc : ∀ con ∈ constituents, ∀ cgu ∈ mappedCgus cgu_hrus h,
        ∀ nd ∈ (OWTemplate.mk
          (t.nodes ++ [⟨m, "RR", [("hru", h)]⟩,
            ⟨DepthToRate, "ArealScale", [("hru", h), ("component", "Runoff")]⟩,
            ⟨DepthToRate, "ArealScale", [("hru", h), ("component", "Quickflow")]⟩,
            ⟨DepthToRate, "ArealScale", [("hru", h), ("component", "Baseflow")]⟩])
          (t.links ++ [⟨⟨m, "RR", [("hru", h)]⟩, "runoff",
              ⟨DepthToRate, "ArealScale", [("hru", h), ("component", "Runoff")]⟩, "input"⟩,
            ⟨⟨m, "RR", [("hru", h)]⟩, "quickflow",
              ⟨DepthToRate, "ArealScale", [("hru", h), ("component", "Quickflow")]⟩, "input"⟩,
            ⟨⟨m, "RR", [("hru", h)]⟩, "baseflow",
              ⟨DepthToRate, "ArealScale", [("hru", h), ("component", "Baseflow")]⟩, "input"⟩,
            ⟨⟨DepthToRate, "ArealScale", [("hru", h), ("component", "Runoff")]⟩, "outflow",
              routingNode routing, "lateral"⟩])).nodes,
        ¬(nd.process = "ConstituentGeneration" ∧
          nd.params = [("constituent", con), ("lu", cgu)]) := by
      intro con hcon cgu hcgu nd hmem hcontra
      rcases List.mem_append.mp hmem with h1 | h1
      · exact (hfresh h (by simp) nd h1).2.2 con cgu hcgu hcontra
      · have h4 : nd = ⟨m, "RR", [("hru", h)]⟩ ∨
            nd = ⟨DepthToRate, "ArealScale", [("hru", h), ("component", "Runoff")]⟩ ∨
            nd = ⟨DepthToRate, "ArealScale", [("hru", h), ("component", "Quickflow")]⟩ ∨
            nd = ⟨DepthToRate, "ArealScale", [("hru", h), ("component", "Baseflow")]⟩ := by
          simpa using h1
        rcases h4 with h2 | h2 | h2 | h2 <;> subst h2 <;> simp at hcontra
    have hconl := conLoop_eq cg tp cgu_hrus
      ⟨DepthToRate, "ArealScale", [("hru", h), ("component", "Runoff")]⟩
      ⟨DepthToRate, "ArealScale", [("hru", h), ("component", "Quickflow")]⟩
      ⟨DepthToRate, "ArealScale", [("hru", h), ("component", "Baseflow")]⟩
      h constituents constituents _ (fun x hx => hx) (hokg h (by simp)) hfreshc hcnd
      (mappedCgus_nodup hkeys h)
    simp only [hruLoop, hm]
    rw [hchain]
    simp only [hconl]
    have hne : ∀ h' ∈ rest, h ≠ h' := by
      intro h' hh' heq
      exact (List.nodup_cons.mp hnd).1 (heq ▸ hh')
    have hmemH : ∀ nd : Node,
        (nd ∈ ([⟨m, "RR", [("hru", h)]⟩,
          ⟨DepthToRate, "ArealScale", [("hru", h), ("component", "Runoff")]⟩,
          ⟨DepthToRate, "ArealScale", [("hru", h), ("component", "Quickflow")]⟩,
          ⟨DepthToRate, "ArealScale", [("hru", h), ("component", "Baseflow")]⟩] : List Node) ∨
          nd ∈ constituents.flatMap (fun con => (mappedCgus cgu_hrus h).map (genNode cg con))) →
        nd ∈ hruNodes rr cg cgu_hrus constituents h := by
      intro nd hx
      rcases hx with hx | hx
      · apply List.mem_append.mpr
        left
        simpa [hmr, scaleNode] using hx
      · exact List.mem_append.mpr (Or.inr hx)
    have hfresh2 : ∀ h' ∈ rest,
        ∀ nd ∈ ((t.nodes ++ [⟨m, "RR", [("hru", h)]⟩,
            ⟨DepthToRate, "ArealScale", [("hru", h), ("component", "Runoff")]⟩,
            ⟨DepthToRate, "ArealScale", [("hru", h), ("component", "Quickflow")]⟩,
            ⟨DepthToRate, "ArealScale", [("hru", h), ("component", "Baseflow")]⟩]) ++
          constituents.flatMap (fun con => (mappedCgus cgu_hrus h).map (genNode cg con))),
        hruFresh cgu_hrus h' nd := by
      intro h' hh' nd hmem
      rcases List.mem_append.mp hmem with h1 | h1
      · rcases List.mem_append.mp h1 with h2 | h2
        · exact hfresh h' (by simp [hh']) nd h2
        · exact hruFresh_of_ne rr cg cgu_hrus constituents hkeys (hne h' hh') nd
            (hmemH nd (Or.inl h2))
      · exact hruFresh_of_ne rr cg cgu_hrus constituents hkeys (hne h' hh') nd
          (hmemH nd (Or.inr h1))
    rw [ih _ (fun x hx => hokr x (by simp [hx])) (fun x hx => hokg x (by simp [hx])) hfresh2
      (List.nodup_cons.mp hnd).2]
    simp only [hruNodes, hruLinks, scaleNode, hmr, List.append_assoc, List.flatMap_cons,
      List.cons_append, List.singleton_append, List.nil_append, Except.ok.injEq,
      OWTemplate.mk.injEq]
    exact ⟨trivial, rfl⟩

theorem hruFresh_routing {cgu_hrus : List (String × String)} {h : String} (routing : Model) :
    hruFresh cgu_hrus h (routingNode routing) := by
  refine ⟨?_, ?_, ?_⟩
  · rintro ⟨hp, -⟩
    simp [routingNode] at hp
  · rintro comp ⟨hp, -⟩
    simp [routingNode] at hp
  · rintro con cgu _ ⟨hp, -⟩
    simp [routingNode] at hp

theorem hruFresh_transport {cgu_hrus : List (String × String)} {h : String}
    (tp : Provider) (con : String) : hruFresh cgu_hrus h (transportNode tp con) := by
  refine ⟨?_, ?_, ?_⟩
  · rintro ⟨hp, -⟩
    simp [transportNode] at hp
  · rintro comp ⟨hp, -⟩
    simp [transportNode] at hp
  · rintro con' cgu _ ⟨hp, -⟩
    simp [transportNode] at hp

/-- Characterization of `get_template`: for a well-formed descriptor (no
duplicate response units, constituents or mapping keys) whose model
resolutions all succeed, the Template built is exactly `expectedNodes` and
`expectedLinks`. -/
theorem get_template_eq (c : SemiLumpedCatchment)
    (hkeys : (c.cgu_hrus.map Prod.fst).Nodup)
    (hcnd : c.constituents.Nodup) (hhnd : c.hrus.Nodup)
    (hokt : ∀ con ∈ c.constituents, resOk (model_for c.transport [con]))
    (hokr : ∀ h ∈ c.hrus, resOk (model_for c.rr [h]))
    (hokg : ∀ h ∈ c.hrus, ∀ con ∈ c.constituents, ∀ cgu ∈ mappedCgus c.cgu_hrus h,
      resOk (model_for c.cg [con, cgu])) :
    get_template c = .ok ⟨expectedNodes c, expectedLinks c⟩ := by
  have h0 : OWTemplate.empty.add_node (routingNode c.routing) =
      ⟨[routingNode c.routing], []⟩ := by
    simp [OWTemplate.empty, OWTemplate.add_node, routingNode]
  have hfresh1 : ∀ con ∈ c.constituents,
      ∀ nd ∈ (OWTemplate.mk [routingNode c.routing] []).nodes,
      ¬(nd.process = "ConstituentRouting" ∧ nd.params = [("constituent", con)]) := by
    intro con hcon nd hmem hcontra
    have : nd = routingNode c.routing := by simpa using hmem
    rw [this] at hcontra
    simp [routingNode] at hcontra
  have htl := transportLoop_eq c.transport (routingNode c.routing) c.constituents
    ⟨[routingNode c.routing], []⟩ hokt hfresh1 hcnd
  have hrn : (⟨c.routing, "FlowRouting", []⟩ : Node) = routingNode c.routing := rfl
  have hfreshH : ∀ h ∈ c.hrus,
      ∀ nd ∈ (OWTemplate.mk
        ((OWTemplate.mk [routingNode c.routing] []).nodes ++
          c.constituents.map (transportNode c.transport))
        ((OWTemplate.mk [routingNode c.routing] []).links ++
          c.constituents.map (fun con =>
            ⟨routingNode c.routing, "outflow", transportNode c.transport con, "outflow"⟩))).nodes,
      hruFresh c.cgu_hrus h nd := by
    intro h hh nd hmem
    rcases List.mem_append.mp hmem with h1 | h1
    · have : nd = routingNode c.routing := by simpa using h1
      rw [this]
      exact hruFresh_routing c.routing
    · obtain ⟨con, hcon, hnd⟩ := List.mem_map.mp h1
      rw [← hnd]
      exact hruFresh_transport c.transport con
  have hhl := hruLoop_eq c.rr c.cg c.transport c.cgu_hrus c.constituents c.routing
    hkeys hcnd c.hrus _ hokr hokg hfreshH hhnd
  simp only [get_template, h0, hrn, htl]
  rw [hhl]
  simp [expectedNodes, expectedLinks, List.append_assoc]

/-! ## Generic counting helpers -/

theorem countP_flatMap {α β : Type} (p : α → Bool) (l : List β) (f : β → List α) :
    (l.flatMap f).countP p = (l.map (fun b => (f b).countP p)).sum := by
  induction l with
  | nil => simp
  | cons x xs ih => simp [List.countP_append, ih]

theorem sum_map_const {α : Type} (l : List α) (k : Nat) :
    (l.map (fun _ => k)).sum = l.length * k := by
  induction l with
  | nil => simp
  | cons x xs ih => simp [ih]; ring

theorem sum_map_add {α : Type} (l : List α) (f g : α → Nat) :
    (l.map (fun h => f h + g h)).sum = (l.map f).sum + (l.map g).sum := by
  induction l with
  | nil => simp
  | cons x xs ih =>
    simp [ih]
    omega

theorem sum_map_ite_count (hrus : List String) (x : String) :
    (hrus.map (fun h => if x = h then 1 else 0)).sum = hrus.count x := by
  induction hrus with
  | nil => simp
  | cons h hs ih =>
    by_cases hx : x = h
    · subst hx
      simp [List.count_cons, ih]
      omega
    · have hbeq : (h == x) = false := beq_eq_false_iff_ne.mpr (Ne.symm hx)
      simp [List.count_cons, hx, hbeq, ih]

theorem mappedCgus_cons_length (p : String × String) (ps : List (String × String)) (h : String) :
    (mappedCgus (p :: ps) h).length =
      (if p.2 = h then 1 else 0) + (mappedCgus ps h).length := by
  by_cases hph : p.2 = h
  · simp [mappedCgus, hph]
    omega
  · have : (p.2 == h) = false := beq_eq_false_iff_ne.mpr hph
    simp [mappedCgus, hph, this]

theorem sum_mappedCgus_length (m : List (String × String)) (hrus : List String)
    (hhnd : hrus.Nodup) (hall : ∀ p ∈ m, p.2 ∈ hrus) :
    (hrus.map (fun h => (mappedCgus m h).length)).sum = m.length := by
  induction m with
  | nil => simp [mappedCgus]
  | cons p ps ih =>
    have hrec : (hrus.map (fun h => (mappedCgus (p :: ps) h).length)).sum =
        (hrus.map (fun h => (if p.2 = h then 1 else 0) + (mappedCgus ps h).length)).sum := by
      congr 1
      exact List.map_congr_left (fun h _ => mappedCgus_cons_length p ps h)
    rw [hrec, sum_map_add, sum_map_ite_count,
      List.count_eq_one_of_mem hhnd (hall p (by simp)),
      ih (fun q hq => hall q (by simp [hq]))]
    simp
    omega

/-! ## The claims -/

/-- C4: for the descriptor with response units `[H1]`, source units
`S1 mapped to H1` and constituents `[N]`, `get_template` yields exactly the
seven nodes and nine links of the end-to-end scenario. -/
theorem C4_end_to_end :
    get_template cEndToEnd = Except.ok
      ⟨[⟨Muskingum, "FlowRouting", []⟩,
        ⟨LumpedConstituentRouting, "ConstituentRouting", [("constituent", "N")]⟩,
        ⟨Simhyd, "RR", [("hru", "H1")]⟩,
        ⟨DepthToRate, "ArealScale", [("hru", "H1"), ("component", "Runoff")]⟩,
        ⟨DepthToRate, "ArealScale", [("hru", "H1"), ("component", "Quickflow")]⟩,
        ⟨DepthToRate, "ArealScale", [("hru", "H1"), ("component", "Baseflow")]⟩,
        ⟨EmcDwc, "ConstituentGeneration", [("constituent", "N"), ("lu", "S1")]⟩],
       [⟨⟨Muskingum, "FlowRouting", []⟩, "outflow",
          ⟨LumpedConstituentRouting, "ConstituentRouting", [("constituent", "N")]⟩, "outflow"⟩,
        ⟨⟨Simhyd, "RR", [("hru", "H1")]⟩, "runoff",
          ⟨DepthToRate, "ArealScale", [("hru", "H1"), ("component", "Runoff")]⟩, "input"⟩,
        ⟨⟨Simhyd, "RR", [("hru", "H1")]⟩, "quickflow",
          ⟨DepthToRate, "ArealScale", [("hru", "H1"), ("component", "Quickflow")]⟩, "input"⟩,
        ⟨⟨Simhyd, "RR", [("hru", "H1")]⟩, "baseflow",
          ⟨DepthToRate, "ArealScale", [("hru", "H1"), ("component", "Baseflow")]⟩, "input"⟩,
        ⟨⟨DepthToRate, "ArealScale", [("hru", "H1"), ("component", "Runoff")]⟩, "outflow",
          ⟨Muskingum, "FlowRouting", []⟩, "lateral"⟩,
        ⟨⟨DepthToRate, "ArealScale", [("hru", "H1"), ("component", "Runoff")]⟩, "outflow",
          ⟨LumpedConstituentRouting, "ConstituentRouting", [("constituent", "N")]⟩, "inflow"⟩,
        ⟨⟨DepthToRate, "ArealScale", [("hru", "H1"), ("component", "Quickflow")]⟩, "outflow",
          ⟨EmcDwc, "ConstituentGeneration", [("constituent", "N"), ("lu", "S1")]⟩, "quickflow"⟩,
        ⟨⟨DepthToRate, "ArealScale", [("hru", "H1"), ("component", "Baseflow")]⟩, "outflow",
          ⟨EmcDwc, "ConstituentGeneration", [("constituent", "N"), ("lu", "S1")]⟩, "baseflow"⟩,
        ⟨⟨EmcDwc, "ConstituentGeneration", [("constituent", "N"), ("lu", "S1")]⟩, "totalLoad",
          ⟨LumpedConstituentRouting, "ConstituentRouting", [("constituent", "N")]⟩,
          "lateralLoad"⟩]⟩ := by
  rfl

/-- C8: `get_template` is deterministic: on equal descriptors it yields
templates with identical node lists and permutation-identical link lists. -/
theorem C8_determinism (d1 d2 : SemiLumpedCatchment) (heq : d1 = d2)
    (t1 t2 : OWTemplate) (h1 : get_template d1 = .ok t1) (h2 : get_template d2 = .ok t2) :
    t1.nodes = t2.nodes ∧ t1.links.Perm t2.links := by
  subst heq
  rw [h1] at h2
  injection h2 with h
  subst h
  exact ⟨rfl, List.Perm.refl _⟩

theorem C8_witness :
    (⟨[⟨Muskingum, "FlowRouting", []⟩], []⟩ : OWTemplate).nodes =
      (⟨[⟨Muskingum, "FlowRouting", []⟩], []⟩ : OWTemplate).nodes ∧
    (⟨[⟨Muskingum, "FlowRouting", []⟩], []⟩ : OWTemplate).links.Perm
      (⟨[⟨Muskingum, "FlowRouting", []⟩], []⟩ : OWTemplate).links :=
  C8_determinism cEmpty cEmpty rfl _ _ rfl rfl

/-- C6: `model_for` implements exactly the spec's resolution rule: a
callable provider is invoked with all keys, a subscriptable provider is
indexed by the first key only, and any other provider resolves to itself. -/
theorem C6_resolver (provider : Provider) (keys : List String) :
    model_for provider keys = resolveSpec provider keys := by
  cases provider with
  | fn f => rfl
  | fixed m => rfl
  | map entries => cases keys <;> rfl

/-- C3 counterexample: resolving a missing key on a mapping provider fails
with a `KeyError`, which is not a `ResolutionError`. -/
theorem C3_counterexample :
    model_for (.map [("a", Simhyd)]) ["b"] = Except.error (PyExc.keyError "b") ∧
    (PyExc.keyError "b").isResolutionError = false :=
  ⟨rfl, rfl⟩

/-- C3 amended: `model_for` propagates the provider's own exception
unchanged — a mapping provider with no entry for the first key raises
`KeyError` for that key, and a callable provider's exception is passed
through as-is; no `ResolutionError` is raised. -/
theorem C3_amended (entries : List (String × Model)) (key : String) (rest : List String)
    (hmiss : entries.lookup key = none)
    (f : List String → Except PyExc Model) (args : List String) (e : PyExc)
    (hf : f args = .error e) :
    model_for (.map entries) (key :: rest) = .error (.keyError key) ∧
    model_for (.fn f) args = .error e := by
  constructor
  · simp [model_for, hmiss]
  · simpa [model_for] using hf

theorem C3_witness :
    model_for (.map [("a", Simhyd)]) ["c"] = Except.error (PyExc.keyError "c") ∧
    model_for (.fn (fun _ => Except.error (PyExc.typeError "boom"))) ["k"] =
      Except.error (PyExc.typeError "boom") :=
  C3_amended [("a", Simhyd)] "c" [] rfl _ ["k"] _ rfl

theorem percentFormatAux_cons_ne (c : Char) (hc : c ≠ '%') (rest : List Char)
    (arg : Option CatchmentId) (acc : List Char) :
    percentFormatAux (c :: rest) arg acc = percentFormatAux rest arg (acc ++ [c]) := by
  rw [percentFormatAux.eq_def]
  simp [hc]

theorem percentFormatAux_pct_pct (rest : List Char) (arg : Option CatchmentId) (acc : List Char) :
    percentFormatAux ('%' :: '%' :: rest) arg acc = percentFormatAux rest arg (acc ++ ['%']) := by
  rw [percentFormatAux.eq_def]
  simp

theorem percentFormatAux_pct_d_int (rest : List Char) (n : Int) (acc : List Char) :
    percentFormatAux ('%' :: 'd' :: rest) (some (.int n)) acc =
      percentFormatAux rest none (acc ++ (toString n).data) := by
  rw [percentFormatAux.eq_def]
  simp

theorem percentFormatAux_pct_d_str (rest : List Char) (s : String) (acc : List Char) :
    percentFormatAux ('%' :: 'd' :: rest) (some (.str s)) acc =
      .error (.typeError "%d format: a number is required, not str") := by
  rw [percentFormatAux.eq_def]
  simp

theorem percentFormatAux_pct_d_none (rest : List Char) (acc : List Char) :
    percentFormatAux ('%' :: 'd' :: rest) none acc =
      .error (.typeError "not enough arguments for format string") := by
  rw [percentFormatAux.eq_def]
  simp

theorem percentFormatAux_pct_s_some (rest : List Char) (v : CatchmentId) (acc : List Char) :
    percentFormatAux ('%' :: 's' :: rest) (some v) acc =
      percentFormatAux rest none (acc ++ (pyStrOf v).data) := by
  rw [percentFormatAux.eq_def]
  simp

theorem percentFormatAux_literal (l : List Char) (hl : '%' ∉ l) :
    ∀ (rest : List Char) (arg : Option CatchmentId) (acc : List Char),
      percentFormatAux (l ++ rest) arg acc = percentFormatAux rest arg (acc ++ l) := by
  induction l with
  | nil => intro rest arg acc; simp
  | cons c l2 ih =>
    intro rest arg acc
    have hc : c ≠ '%' := fun h => hl (h ▸ List.mem_cons_self c l2)
    have hl2 : '%' ∉ l2 := fun h => hl (List.mem_cons_of_mem c h)
    rw [List.cons_append, percentFormatAux_cons_ne c hc, ih hl2]
    simp

theorem percentFormatAux_done (l : List Char) (hl : '%' ∉ l) (acc : List Char) :
    percentFormatAux l none acc = .ok (acc ++ l) := by
  have h := percentFormatAux_literal l hl [] none acc
  rw [List.append_nil] at h
  rw [h]
  rfl

theorem percentFormat_int (tail : String) (htail : '%' ∉ tail.data) (n : Int) :
    percentFormat ("%d" ++ tail) (.int n) = .ok (toString n ++ tail) := by
  have hdata : ("%d" ++ tail).data = '%' :: 'd' :: tail.data := by
    simp [String.data_append]
  rw [percentFormat, hdata, percentFormatAux_pct_d_int, percentFormatAux_done tail.data htail]
  rfl

theorem percentFormat_str (tail : String) (s : String) :
    percentFormat ("%d" ++ tail) (.str s) =
      .error (.typeError "%d format: a number is required, not str") := by
  have hdata : ("%d" ++ tail).data = '%' :: 'd' :: tail.data := by
    simp [String.data_append]
  rw [percentFormat, hdata, percentFormatAux_pct_d_str]

theorem percentFormat_stage_one (tn : String) (htn : '%' ∉ tn.data) (con : String) :
    percentFormat ("%%d-ConstituentRouting-%s (" ++ tn ++ ")") (.str con) =
      .ok ("%d-ConstituentRouting-" ++ con ++ " (" ++ tn ++ ")") := by
  have h1 : "%%d-ConstituentRouting-%s (".data =
      '%' :: '%' :: ("d-ConstituentRouting-".data ++ '%' :: 's' :: " (".data) := by decide
  have hdata : ("%%d-ConstituentRouting-%s (" ++ tn ++ ")").data =
      '%' :: '%' :: ("d-ConstituentRouting-".data ++
        '%' :: 's' :: (" (".data ++ (tn.data ++ ")".data))) := by
    simp [String.data_append, h1]
  have hrest : '%' ∉ (" (".data ++ (tn.data ++ ")".data)) := by
    intro hmem
    rcases List.mem_append.mp hmem with h | h
    · exact absurd h (by decide)
    · rcases List.mem_append.mp h with h | h
      · exact htn h
      · exact absurd h (by decide)
  have hlit : '%' ∉ "d-ConstituentRouting-".data := by decide
  rw [percentFormat, hdata, percentFormatAux_pct_pct,
    percentFormatAux_literal "d-ConstituentRouting-".data hlit,
    percentFormatAux_pct_s_some, percentFormatAux_done _ hrest]
  have hfin : (((([] : List Char) ++ ['%']) ++ "d-ConstituentRouting-".data) ++
      (pyStrOf (.str con)).data) ++ (" (".data ++ (tn.data ++ ")".data)) =
      ("%d-ConstituentRouting-" ++ con ++ " (" ++ tn ++ ")").data := by
    simp [String.data_append, pyStrOf]
  rw [hfin]

theorem buildLinkages_fixed (tm : Model) (cons : List String) :
    buildLinkages (.fixed tm) cons = .ok (cons.map (fun con =>
      ("%d-ConstituentRouting-" ++ con ++ " (" ++ tm.mname ++ ")",
        "outflowLoad", "inflowLoad"))) := by
  induction cons with
  | nil => rfl
  | cons con rest ih =>
    rw [buildLinkages.eq_def]
    simp only [Provider.displayName, percentFormat_stage_one tm.mname tm.hname con, ih]
    simp

theorem linkLoop_ok (u d : Int) (lks : List (String × String × String))
    (hfree : ∀ x ∈ lks, '%' ∉ x.1.data) :
    ∀ g : List Edge,
      linkLoop (.int u) (.int d) g (lks.map (fun x => ("%d" ++ x.1, x.2.1, x.2.2))) =
        .ok (g ++ lks.map (fun x =>
          ⟨toString d ++ x.1, toString u ++ x.1, [x.2.1], [x.2.2]⟩)) := by
  induction lks with
  | nil => intro g; simp [linkLoop]
  | cons x rest ih =>
    intro g
    obtain ⟨lt, src, dest⟩ := x
    have hx : '%' ∉ lt.data := hfree (lt, src, dest) (by simp)
    rw [List.map_cons, linkLoop.eq_def]
    simp only [percentFormat_int lt hx u, percentFormat_int lt hx d]
    rw [ih (fun y hy => hfree y (by simp [hy]))]
    simp [List.append_assoc]

theorem flowTemplate_split (x : String) : ("%d-FlowRouting (" ++ x ++ ")" : String) =
    "%d" ++ ("-FlowRouting (" ++ x ++ ")") := by
  simp [← String.append_assoc]

theorem loadTemplate_split (x y : String) :
    ("%d-ConstituentRouting-" ++ x ++ " (" ++ y ++ ")" : String) =
    "%d" ++ ("-ConstituentRouting-" ++ x ++ " (" ++ y ++ ")") := by
  simp [← String.append_assoc]

theorem flowTail_free (m : Model) : '%' ∉ ("-FlowRouting (" ++ m.mname ++ ")").data := by
  simp [String.data_append]
  exact m.hname

theorem loadTail_free (con : String) (hcon : '%' ∉ con.data) (m : Model) :
    '%' ∉ ("-ConstituentRouting-" ++ con ++ " (" ++ m.mname ++ ")").data := by
  simp [String.data_append]
  exact ⟨hcon, m.hname⟩

/-- C5 counterexample: on the descriptor whose constituent id `N%d` carries a
conversion specifier, the second-stage formatting of the load template
raises `TypeError: not enough arguments for format string` after the flow
edge was already added, so the call neither succeeds nor adds `1 + C`
edges. -/
theorem C5_counterexample :
    link_catchments cPercent [] (.int 1) (.int 2) =
      .error (.typeError "not enough arguments for format string",
        [⟨"2-FlowRouting (Muskingum)", "1-FlowRouting (Muskingum)",
          ["outflow"], ["inflow"]⟩]) := by
  rfl

/-- C5 amended: for constituent identifiers free of percent characters (and
registry display names, which never contain one), `link_catchments` with
numeric identifiers adds exactly `1 + C` edges: one flow edge (ports
`outflow` → `inflow`) and one load edge per constituent (ports
`outflowLoad` → `inflowLoad`), each from the label resolved against the
downstream id to the label resolved against the upstream id. -/
theorem C5_link_catchments (c : SemiLumpedCatchment) (g : List Edge) (u d : Int)
    (tm : Model) (htp : c.transport = .fixed tm)
    (hcon : ∀ con ∈ c.constituents, '%' ∉ con.data) :
    link_catchments c g (.int u) (.int d) = .ok (g ++ linkEdges c tm u d) ∧
    (linkEdges c tm u d).length = 1 + c.constituents.length := by
  constructor
  · simp only [link_catchments, htp, buildLinkages_fixed]
    have hfree : ∀ x ∈ ((("-FlowRouting (" ++ c.routing.mname ++ ")"), "outflow", "inflow") ::
        c.constituents.map (fun con =>
          (("-ConstituentRouting-" ++ con ++ " (" ++ tm.mname ++ ")"),
            "outflowLoad", "inflowLoad"))), '%' ∉ x.1.data := by
      intro x hx
      rcases List.mem_cons.mp hx with h | h
      · rw [h]
        exact flowTail_free c.routing
      · obtain ⟨con, hcm, hxeq⟩ := List.mem_map.mp h
        rw [← hxeq]
        exact loadTail_free con (hcon con hcm) tm
    have hshape : (("%d-FlowRouting (" ++ c.routing.mname ++ ")", "outflow", "inflow") ::
        c.constituents.map (fun con =>
          ("%d-ConstituentRouting-" ++ con ++ " (" ++ tm.mname ++ ")",
            "outflowLoad", "inflowLoad"))) =
        ((("-FlowRouting (" ++ c.routing.mname ++ ")"), "outflow", "inflow") ::
          c.constituents.map (fun con =>
            (("-ConstituentRouting-" ++ con ++ " (" ++ tm.mname ++ ")"),
              "outflowLoad", "inflowLoad"))).map
          (fun x => ("%d" ++ x.1, x.2.1, x.2.2)) := by
      simp only [List.map_cons, List.map_map]
      rfl
    rw [hshape, linkLoop_ok u d _ hfree g]
    have hedges : (((("-FlowRouting (" ++ c.routing.mname ++ ")"), "outflow", "inflow") ::
        c.constituents.map (fun con =>
          (("-ConstituentRouting-" ++ con ++ " (" ++ tm.mname ++ ")"),
            "outflowLoad", "inflowLoad"))).map
        (fun x => (⟨toString d ++ x.1, toString u ++ x.1, [x.2.1], [x.2.2]⟩ : Edge))) =
        linkEdges c tm u d := by
      simp only [List.map_cons, List.map_map, linkEdges]
      congr 1
      · simp [String.append_assoc]
      · apply List.map_congr_left
        intro con hcm
        simp [Function.comp, String.append_assoc]
    rw [hedges]
  · simp [linkEdges]
    omega

theorem C5_witness :
    link_catchments defaultCatchment [] (.int 1) (.int 2) =
      .ok ([] ++ linkEdges defaultCatchment LumpedConstituentRouting 1 2) ∧
    (linkEdges defaultCatchment LumpedConstituentRouting 1 2).length =
      1 + defaultCatchment.constituents.length :=
  C5_link_catchments defaultCatchment [] 1 2 LumpedConstituentRouting rfl (by decide)

/-- C9: the label templates are `%d`-formatted with the catchment
identifier, so a non-numeric (string) upstream or downstream identifier
makes `link_catchments` raise a `TypeError` before any edge is added: the
graph is returned unchanged alongside the error. -/
theorem C9_nonnumeric (c : SemiLumpedCatchment) (g : List Edge)
    (upstream downstream : CatchmentId) (tm : Model) (htp : c.transport = .fixed tm)
    (hstr : (∃ s, upstream = .str s) ∨ (∃ s, downstream = .str s)) :
    ∃ msg, link_catchments c g upstream downstream = .error (.typeError msg, g) := by
  rcases hstr with ⟨s, hu⟩ | ⟨s, hd⟩
  · subst hu
    refine ⟨"%d format: a number is required, not str", ?_⟩
    simp only [link_catchments, htp, buildLinkages_fixed]
    rw [linkLoop.eq_def]
    simp only [flowTemplate_split, percentFormat_str]
  · subst hd
    cases upstream with
    | str s2 =>
      refine ⟨"%d format: a number is required, not str", ?_⟩
      simp only [link_catchments, htp, buildLinkages_fixed]
      rw [linkLoop.eq_def]
      simp only [flowTemplate_split, percentFormat_str]
    | int n =>
      refine ⟨"%d format: a number is required, not str", ?_⟩
      simp only [link_catchments, htp, buildLinkages_fixed]
      rw [linkLoop.eq_def]
      simp only [flowTemplate_split, percentFormat_int _ (flowTail_free c.routing) n,
        percentFormat_str]

theorem C9_witness :
    ∃ msg, link_catchments defaultCatchment [] (.str "abc") (.int 2) =
      .error (.typeError msg, []) :=
  C9_nonnumeric defaultCatchment [] (.str "abc") (.int 2) LumpedConstituentRouting rfl
    (Or.inl ⟨"abc", rfl⟩)

theorem flatMap_length {α β : Type} (l : List α) (f : α → List β) :
    (l.flatMap f).length = (l.map (fun a => (f a).length)).sum := by
  induction l with
  | nil => simp
  | cons x xs ih => simp [ih]

theorem sum_map_mul_left {α : Type} (l : List α) (k : Nat) (f : α → Nat) :
    (l.map (fun a => k * f a)).sum = k * (l.map f).sum := by
  induction l with
  | nil => simp
  | cons x xs ih =>
    simp [ih]
    ring

theorem sum_map_ite (l : List String) (x : String) (k : Nat) :
    (l.map (fun h => if x = h then k else 0)).sum = l.count x * k := by
  induction l with
  | nil => simp
  | cons h hs ih =>
    by_cases hx : x = h
    · subst hx
      simp [List.count_cons, ih]
      ring
    · have hbeq : (h == x) = false := beq_eq_false_iff_ne.mpr (Ne.symm hx)
      simp [List.count_cons, hx, hbeq, ih]

theorem hruNodes_length (rr cg : Provider) (chs : List (String × String))
    (cons : List String) (h : String) :
    (hruNodes rr cg chs cons h).length = 4 + cons.length * (mappedCgus chs h).length := by
  have hcomp : List.length ∘ (fun con => List.map (genNode cg con) (mappedCgus chs h)) =
      fun _ => (mappedCgus chs h).length := funext fun con => by simp
  simp [hruNodes, flatMap_length, List.length_map, sum_map_const, hcomp]
  ring

theorem expectedNodes_length (c : SemiLumpedCatchment)
    (hhnd : c.hrus.Nodup) (hall : ∀ p ∈ c.cgu_hrus, p.2 ∈ c.hrus) :
    (expectedNodes c).length = 1 + c.constituents.length + c.hrus.length * 4 +
      c.constituents.length * c.cgu_hrus.length := by
  simp only [expectedNodes, List.length_cons, List.length_append, List.length_map]
  rw [flatMap_length]
  have h1 : c.hrus.map (fun h => (hruNodes c.rr c.cg c.cgu_hrus c.constituents h).length) =
      c.hrus.map (fun h => 4 + c.constituents.length * (mappedCgus c.cgu_hrus h).length) :=
    List.map_congr_left (fun h _ => hruNodes_length c.rr c.cg c.cgu_hrus c.constituents h)
  rw [h1, sum_map_add, sum_map_const, sum_map_mul_left,
    sum_mappedCgus_length c.cgu_hrus c.hrus hhnd hall]
  ring

/-- C1 counterexample: the descriptor with two constituents, one response
unit and one source unit yields a Template with 9 nodes, not the
`1 + C + R*(1+3) + S = 8` the claim predicts: the code creates one
generation node per (constituent, source unit) pair. -/
theorem C1_counterexample :
    (get_template cTwoCons).toOption.map (fun t => t.nodes.length) = some 9 ∧
    9 ≠ 1 + cTwoCons.constituents.length + cTwoCons.hrus.length * (1 + 3) +
      cTwoCons.cgus.length := by
  exact ⟨rfl, by decide⟩

/-- C1 amended: for a well-formed descriptor with `R` response units, `C`
constituents and `S` source units all mapped onto response units in the
set, the Template has `1 + C + R*(1+3) + C*S` nodes — one generation node
per (constituent, source unit) pair, not one per source unit. -/
theorem C1_amended (c : SemiLumpedCatchment)
    (hkeys : (c.cgu_hrus.map Prod.fst).Nodup)
    (hcnd : c.constituents.Nodup) (hhnd : c.hrus.Nodup)
    (hall : ∀ p ∈ c.cgu_hrus, p.2 ∈ c.hrus)
    (hokt : ∀ con ∈ c.constituents, resOk (model_for c.transport [con]))
    (hokr : ∀ h ∈ c.hrus, resOk (model_for c.rr [h]))
    (hokg : ∀ h ∈ c.hrus, ∀ con ∈ c.constituents, ∀ cgu ∈ mappedCgus c.cgu_hrus h,
      resOk (model_for c.cg [con, cgu]))
    (t : OWTemplate) (ht : get_template c = .ok t) :
    t.nodes.length = 1 + c.constituents.length + c.hrus.length * (1 + 3) +
      c.constituents.length * c.cgu_hrus.length := by
  have hchar := get_template_eq c hkeys hcnd hhnd hokt hokr hokg
  rw [ht] at hchar
  injection hchar with h2
  rw [h2]
  show (expectedNodes c).length = _
  rw [expectedNodes_length c hhnd hall]

theorem C1_witness :
    (OWTemplate.mk (expectedNodes cTwoCons) (expectedLinks cTwoCons)).nodes.length =
      1 + cTwoCons.constituents.length + cTwoCons.hrus.length * (1 + 3) +
        cTwoCons.constituents.length * cTwoCons.cgu_hrus.length :=
  C1_amended cTwoCons (by decide) (by decide) (by decide) (by decide)
    (fun con _ => ⟨LumpedConstituentRouting, rfl⟩) (fun h _ => ⟨Simhyd, rfl⟩)
    (fun h _ con _ cgu _ => ⟨EmcDwc, rfl⟩) _ rfl

theorem hruLinks_count_lateral (rr cg tp : Provider) (chs : List (String × String))
    (cons : List String) (routing : Model) (h : String) :
    (hruLinks rr cg tp chs cons routing h).countP isLateralInto = 1 := by
  simp [hruLinks, List.countP_append, List.countP_cons, countP_flatMap, isLateralInto,
    routingNode, scaleNode, transportNode, genNode, genLinks, sum_map_const]

theorem hruLinks_count_inflow (rr cg tp : Provider) (chs : List (String × String))
    (cons : List String) (routing : Model) (h : String)
    (con : String) (hcnd : cons.Nodup) (hcon : con ∈ cons) :
    (hruLinks rr cg tp chs cons routing h).countP (isInflowInto con) = 1 := by
  have hpt : ∀ con' ∈ cons,
      (((⟨scaleNode h "Runoff", "outflow", transportNode tp con', "inflow"⟩ : OWLink) ::
        (mappedCgus chs h).flatMap (genLinks cg tp h con')).countP (isInflowInto con)) =
      if con = con' then 1 else 0 := by
    intro con' _
    by_cases hcc : con = con'
    · subst hcc
      simp [List.countP_cons, countP_flatMap, genLinks, isInflowInto, transportNode,
        genNode, scaleNode, sum_map_const]
    · have hbeq : (([("constituent", con')] : List (String × String)) ==
          [("constituent", con)]) = false := by
        rw [beq_eq_false_iff_ne]
        intro heq
        apply hcc
        have : con' = con := by simpa using heq
        exact this.symm
      simp [List.countP_cons, countP_flatMap, genLinks, isInflowInto, transportNode,
        genNode, scaleNode, sum_map_const, hbeq, hcc]
  simp only [hruLinks, List.countP_append, countP_flatMap]
  rw [List.map_congr_left hpt, sum_map_ite_count, List.count_eq_one_of_mem hcnd hcon]
  simp [isInflowInto, scaleNode, routingNode, List.countP_cons]

theorem hruLinks_count_load (rr cg tp : Provider) (chs : List (String × String))
    (cons : List String) (routing : Model) (h : String)
    (con : String) (hcnd : cons.Nodup) (hcon : con ∈ cons) :
    (hruLinks rr cg tp chs cons routing h).countP (isLoadInto con) =
      (mappedCgus chs h).length := by
  have hpt : ∀ con' ∈ cons,
      (((⟨scaleNode h "Runoff", "outflow", transportNode tp con', "inflow"⟩ : OWLink) ::
        (mappedCgus chs h).flatMap (genLinks cg tp h con')).countP (isLoadInto con)) =
      if con = con' then (mappedCgus chs h).length else 0 := by
    intro con' _
    by_cases hcc : con = con'
    · subst hcc
      simp [List.countP_cons, countP_flatMap, genLinks, isLoadInto, transportNode,
        genNode, scaleNode, sum_map_const]
    · have hbeq : (([("constituent", con')] : List (String × String)) ==
          [("constituent", con)]) = false := by
        rw [beq_eq_false_iff_ne]
        intro heq
        apply hcc
        have : con' = con := by simpa using heq
        exact this.symm
      simp [List.countP_cons, countP_flatMap, genLinks, isLoadInto, transportNode,
        genNode, scaleNode, sum_map_const, hbeq, hcc]
  simp only [hruLinks, List.countP_append, countP_flatMap]
  rw [List.map_congr_left hpt, sum_map_ite, List.count_eq_one_of_mem hcnd hcon]
  simp [isLoadInto, scaleNode, routingNode, List.countP_cons]

/-- C7: in the Template of a well-formed descriptor whose source units are
all mapped onto present response units, the routing node's `lateral` port
receives one link per response unit, each transport node's `inflow` port
one link per response unit, and each transport node's `lateralLoad` port
one link per mapped source unit. -/
theorem C7_port_aggregation (c : SemiLumpedCatchment)
    (hkeys : (c.cgu_hrus.map Prod.fst).Nodup)
    (hcnd : c.constituents.Nodup) (hhnd : c.hrus.Nodup)
    (hall : ∀ p ∈ c.cgu_hrus, p.2 ∈ c.hrus)
    (hokt : ∀ con ∈ c.constituents, resOk (model_for c.transport [con]))
    (hokr : ∀ h ∈ c.hrus, resOk (model_for c.rr [h]))
    (hokg : ∀ h ∈ c.hrus, ∀ con ∈ c.constituents, ∀ cgu ∈ mappedCgus c.cgu_hrus h,
      resOk (model_for c.cg [con, cgu]))
    (t : OWTemplate) (ht : get_template c = .ok t) :
    t.links.countP isLateralInto = c.hrus.length ∧
    (∀ con ∈ c.constituents, t.links.countP (isInflowInto con) = c.hrus.length) ∧
    (∀ con ∈ c.constituents, t.links.countP (isLoadInto con) = c.cgu_hrus.length) := by
  have hchar := get_template_eq c hkeys hcnd hhnd hokt hokr hokg
  rw [ht] at hchar
  injection hchar with h2
  rw [h2]
  show (expectedLinks c).countP isLateralInto = c.hrus.length ∧
    (∀ con ∈ c.constituents, (expectedLinks c).countP (isInflowInto con) = c.hrus.length) ∧
    (∀ con ∈ c.constituents, (expectedLinks c).countP (isLoadInto con) = c.cgu_hrus.length)
  refine ⟨?_, ?_, ?_⟩
  · simp only [expectedLinks, List.countP_append, countP_flatMap]
    rw [List.map_congr_left (fun h _ =>
      hruLinks_count_lateral c.rr c.cg c.transport c.cgu_hrus c.constituents c.routing h)]
    simp [sum_map_const, isLateralInto, transportNode, List.countP_map, Function.comp]
  · intro con hcon
    simp only [expectedLinks, List.countP_append, countP_flatMap]
    rw [List.map_congr_left (fun h _ =>
      hruLinks_count_inflow c.rr c.cg c.transport c.cgu_hrus c.constituents c.routing h
        con hcnd hcon)]
    simp [sum_map_const, isInflowInto, transportNode, List.countP_map, Function.comp]
  · intro con hcon
    simp only [expectedLinks, List.countP_append, countP_flatMap]
    rw [List.map_congr_left (fun h _ =>
      hruLinks_count_load c.rr c.cg c.transport c.cgu_hrus c.constituents c.routing h
        con hcnd hcon),
      sum_mappedCgus_length c.cgu_hrus c.hrus hhnd hall]
    simp [isLoadInto, transportNode, List.countP_map, Function.comp]

theorem C7_witness :
    (OWTemplate.mk (expectedNodes defaultCatchment) (expectedLinks defaultCatchment)).links.countP
      isLateralInto = defaultCatchment.hrus.length ∧
    (∀ con ∈ defaultCatchment.constituents,
      (OWTemplate.mk (expectedNodes defaultCatchment)
        (expectedLinks defaultCatchment)).links.countP (isInflowInto con) =
        defaultCatchment.hrus.length) ∧
    (∀ con ∈ defaultCatchment.constituents,
      (OWTemplate.mk (expectedNodes defaultCatchment)
        (expectedLinks defaultCatchment)).links.countP (isLoadInto con) =
        defaultCatchment.cgu_hrus.length) :=
  C7_port_aggregation defaultCatchment (by decide) (by decide) (by decide) (by decide)
    (fun con _ => ⟨LumpedConstituentRouting, rfl⟩) (fun h _ => ⟨Simhyd, rfl⟩)
    (fun h _ con _ cgu _ => ⟨EmcDwc, rfl⟩) _ rfl

theorem conLoop_congr (cg : Provider) (chs chs2 : List (String × String))
    (rs qs bs : Node) (hru : String) (tr : List (String × Node))
    (hfil : chs.filter (fun p => p.2 == hru) = chs2.filter (fun p => p.2 == hru)) :
    ∀ (t : OWTemplate) (cons : List String),
      conLoop cg chs rs qs bs hru tr t cons = conLoop cg chs2 rs qs bs hru tr t cons := by
  intro t cons
  induction cons generalizing t with
  | nil => simp [conLoop]
  | cons con rest ih =>
    simp only [conLoop, hfil]
    cases tr.lookup con with
    | none => rfl
    | some tn =>
      simp only []
      cases genLoop cg qs bs tn con (t.add_link ⟨rs, "outflow", tn, "inflow"⟩)
          ((chs2.filter (fun p => p.2 == hru)).map (·.1)) with
      | error e => rfl
      | ok t2 => exact ih t2

theorem hruLoop_congr (rr cg : Provider) (chs chs2 : List (String × String))
    (cons : List String) (rn : Node) (tr : List (String × Node)) (hrus : List String)
    (hfil : ∀ h ∈ hrus, chs.filter (fun p => p.2 == h) = chs2.filter (fun p => p.2 == h)) :
    ∀ t : OWTemplate,
      hruLoop rr cg chs cons rn tr t hrus = hruLoop rr cg chs2 cons rn tr t hrus := by
  induction hrus with
  | nil => intro t; simp [hruLoop]
  | cons h rest ih =>
    intro t
    simp only [hruLoop]
    cases model_for rr [h] with
    | error e => rfl
    | ok m =>
      simp only []
      rw [conLoop_congr cg chs chs2
        ⟨DepthToRate, "ArealScale", [("hru", h), ("component", "Runoff")]⟩
        ⟨DepthToRate, "ArealScale", [("hru", h), ("component", "Quickflow")]⟩
        ⟨DepthToRate, "ArealScale", [("hru", h), ("component", "Baseflow")]⟩
        h tr (hfil h (by simp)) _ cons]
      cases conLoop cg chs2
          ⟨DepthToRate, "ArealScale", [("hru", h), ("component", "Runoff")]⟩
          ⟨DepthToRate, "ArealScale", [("hru", h), ("component", "Quickflow")]⟩
          ⟨DepthToRate, "ArealScale", [("hru", h), ("component", "Baseflow")]⟩
          h tr _ cons with
      | error e => rfl
      | ok t2 => exact ih (fun x hx => hfil x (by simp [hx])) t2

theorem filter_restrict (hrs : List String) (chs : List (String × String))
    (h : String) (hh : h ∈ hrs) :
    (chs.filter (fun p => hrs.contains p.2)).filter (fun p => p.2 == h) =
      chs.filter (fun p => p.2 == h) := by
  rw [List.filter_filter]
  apply List.filter_congr
  intro a _
  by_cases hah : a.2 = h
  · subst hah
    simp [hh]
  · simp [beq_eq_false_iff_ne.mpr hah]

/-- C2 counterexample: on the descriptor whose only source unit `S1` is
mapped to the absent response unit `H2`, `get_template` does not fail: it
returns a Template (six nodes, six links, no generation node), so the
dangling mapping is silently ignored rather than rejected with a
`StructureError`. -/
theorem C2_counterexample :
    get_template cDangling = Except.ok
      ⟨[⟨Muskingum, "FlowRouting", []⟩,
        ⟨LumpedConstituentRouting, "ConstituentRouting", [("constituent", "N")]⟩,
        ⟨Simhyd, "RR", [("hru", "H1")]⟩,
        ⟨DepthToRate, "ArealScale", [("hru", "H1"), ("component", "Runoff")]⟩,
        ⟨DepthToRate, "ArealScale", [("hru", "H1"), ("component", "Quickflow")]⟩,
        ⟨DepthToRate, "ArealScale", [("hru", "H1"), ("component", "Baseflow")]⟩],
       [⟨⟨Muskingum, "FlowRouting", []⟩, "outflow",
          ⟨LumpedConstituentRouting, "ConstituentRouting", [("constituent", "N")]⟩, "outflow"⟩,
        ⟨⟨Simhyd, "RR", [("hru", "H1")]⟩, "runoff",
          ⟨DepthToRate, "ArealScale", [("hru", "H1"), ("component", "Runoff")]⟩, "input"⟩,
        ⟨⟨Simhyd, "RR", [("hru", "H1")]⟩, "quickflow",
          ⟨DepthToRate, "ArealScale", [("hru", "H1"), ("component", "Quickflow")]⟩, "input"⟩,
        ⟨⟨Simhyd, "RR", [("hru", "H1")]⟩, "baseflow",
          ⟨DepthToRate, "ArealScale", [("hru", "H1"), ("component", "Baseflow")]⟩, "input"⟩,
        ⟨⟨DepthToRate, "ArealScale", [("hru", "H1"), ("component", "Runoff")]⟩, "outflow",
          ⟨Muskingum, "FlowRouting", []⟩, "lateral"⟩,
        ⟨⟨DepthToRate, "ArealScale", [("hru", "H1"), ("component", "Runoff")]⟩, "outflow",
          ⟨LumpedConstituentRouting, "ConstituentRouting", [("constituent", "N")]⟩,
          "inflow"⟩]⟩ := by
  rfl

/-- C2 amended: a dangling mapping is silently ignored: `get_template`
raises no error for it and builds exactly the Template of the descriptor
with the dangling mapping entries removed. -/
theorem C2_amended (c : SemiLumpedCatchment) :
    get_template c =
      get_template { c with cgu_hrus := c.cgu_hrus.filter (fun p => c.hrus.contains p.2) } := by
  obtain ⟨hrs, cgs, chs, cons, rr, cg, routing, tp⟩ := c
  simp only [get_template]
  cases transportLoop tp ⟨routing, "FlowRouting", []⟩
      (OWTemplate.empty.add_node ⟨routing, "FlowRouting", []⟩) cons with
  | error e => rfl
  | ok pr =>
    obtain ⟨t1, tr⟩ := pr
    exact hruLoop_congr rr cg chs (chs.filter (fun p => hrs.contains p.2)) cons
      ⟨routing, "FlowRouting", []⟩ tr hrs
      (fun h hh => (filter_restrict hrs chs h hh).symm) t1

/-- C10 counterexample: with an empty constituent list, a source unit whose
mapping key has its value in the response-unit set still yields no
constituent-generation node, so generation nodes are not created "exactly
for the keys of the mapping whose value lies in the response-unit set". -/
theorem C10_counterexample :
    get_template cNoCon = Except.ok
      ⟨[⟨Muskingum, "FlowRouting", []⟩,
        ⟨Simhyd, "RR", [("hru", "H1")]⟩,
        ⟨DepthToRate, "ArealScale", [("hru", "H1"), ("component", "Runoff")]⟩,
        ⟨DepthToRate, "ArealScale", [("hru", "H1"), ("component", "Quickflow")]⟩,
        ⟨DepthToRate, "ArealScale", [("hru", "H1"), ("component", "Baseflow")]⟩],
       [⟨⟨Simhyd, "RR", [("hru", "H1")]⟩, "runoff",
          ⟨DepthToRate, "ArealScale", [("hru", "H1"), ("component", "Runoff")]⟩, "input"⟩,
        ⟨⟨Simhyd, "RR", [("hru", "H1")]⟩, "quickflow",
          ⟨DepthToRate, "ArealScale", [("hru", "H1"), ("component", "Quickflow")]⟩, "input"⟩,
        ⟨⟨Simhyd, "RR", [("hru", "H1")]⟩, "baseflow",
          ⟨DepthToRate, "ArealScale", [("hru", "H1"), ("component", "Baseflow")]⟩, "input"⟩,
        ⟨⟨DepthToRate, "ArealScale", [("hru", "H1"), ("component", "Runoff")]⟩, "outflow",
          ⟨Muskingum, "FlowRouting", []⟩, "lateral"⟩]⟩ ∧
    ("S1", "H1") ∈ cNoCon.cgu_hrus ∧ "H1" ∈ cNoCon.hrus := by
  exact ⟨rfl, by decide, by decide⟩

/-- C10 amended: the Template depends on the mapping `cgu_hrus` and never on
the declared source-unit list `cgus` (descriptors differing only in `cgus`
yield identical results), and, when the constituent list is nonempty,
constituent-generation nodes exist exactly for the mapping keys whose value
lies in the response-unit set — a source unit listed in `cgus` but absent
from the mapping produces no node. -/
theorem C10_amended (c : SemiLumpedCatchment)
    (hkeys : (c.cgu_hrus.map Prod.fst).Nodup)
    (hcnd : c.constituents.Nodup) (hhnd : c.hrus.Nodup)
    (hokt : ∀ con ∈ c.constituents, resOk (model_for c.transport [con]))
    (hokr : ∀ h ∈ c.hrus, resOk (model_for c.rr [h]))
    (hokg : ∀ h ∈ c.hrus, ∀ con ∈ c.constituents, ∀ cgu ∈ mappedCgus c.cgu_hrus h,
      resOk (model_for c.cg [con, cgu]))
    (t : OWTemplate) (ht : get_template c = .ok t) :
    (∀ l, get_template { c with cgus := l } = get_template c) ∧
    (∀ cgu, (∃ nd ∈ t.nodes, nd.process = "ConstituentGeneration" ∧ ("lu", cgu) ∈ nd.params) ↔
      (c.constituents ≠ [] ∧ ∃ h, (cgu, h) ∈ c.cgu_hrus ∧ h ∈ c.hrus)) := by
  have hchar := get_template_eq c hkeys hcnd hhnd hokt hokr hokg
  rw [ht] at hchar
  injection hchar with h2
  constructor
  · intro l
    rfl
  · intro cgu
    have hnodes : t.nodes = expectedNodes c := by rw [h2]
    rw [hnodes]
    constructor
    · rintro ⟨nd, hmem, hproc, hlu⟩
      simp only [expectedNodes, List.mem_cons, List.mem_append, List.mem_map,
        List.mem_flatMap] at hmem
      rcases hmem with h1 | ⟨con, hcon, hnd⟩ | ⟨h, hh, hnd⟩
      · rw [h1] at hproc
        simp [routingNode] at hproc
      · rw [← hnd] at hproc
        simp [transportNode] at hproc
      · rcases List.mem_append.mp hnd with h3 | h3
        · have four : nd = runoffNode c.rr h ∨ nd = scaleNode h "Runoff" ∨
              nd = scaleNode h "Quickflow" ∨ nd = scaleNode h "Baseflow" := by simpa using h3
          rcases four with h4 | h4 | h4 | h4 <;> rw [h4] at hproc <;>
            simp [runoffNode, scaleNode] at hproc
        · obtain ⟨con, hcon, h4⟩ := List.mem_flatMap.mp h3
          obtain ⟨cgu', hcgu', h5⟩ := List.mem_map.mp h4
          refine ⟨?_, h, ?_, hh⟩
          · intro hnil
            rw [hnil] at hcon
            cases hcon
          rw [← h5] at hlu
          simp only [genNode] at hlu
          have hlu2 : cgu = cgu' := by
            rcases List.mem_cons.mp hlu with h6 | h6
            · exact absurd (congrArg Prod.fst h6) (by simp)
            · have h7 : ("lu", cgu) = ("lu", cgu') := by simpa using h6
              exact congrArg Prod.snd h7
          rw [hlu2]
          exact mem_mappedCgus.mp hcgu'
    · rintro ⟨hne, h, hmem, hh⟩
      obtain ⟨con, hcon⟩ : ∃ con, con ∈ c.constituents := by
        cases hc : c.constituents with
        | nil => exact absurd hc hne
        | cons a l => exact ⟨a, by simp [hc]⟩
      refine ⟨genNode c.cg con cgu, ?_, by simp [genNode], by simp [genNode]⟩
      simp only [expectedNodes, List.mem_cons, List.mem_append, List.mem_map, List.mem_flatMap]
      exact Or.inr (Or.inr ⟨h, hh, List.mem_append.mpr (Or.inr (List.mem_flatMap.mpr
        ⟨con, hcon, List.mem_map.mpr ⟨cgu, mem_mappedCgus.mpr hmem, rfl⟩⟩))⟩)

theorem C10_witness :
    get_template { defaultCatchment with cgus := ["other"] } = get_template defaultCatchment ∧
    ((∃ nd ∈ (OWTemplate.mk (expectedNodes defaultCatchment)
        (expectedLinks defaultCatchment)).nodes,
        nd.process = "ConstituentGeneration" ∧ ("lu", "CGU") ∈ nd.params) ↔
      (defaultCatchment.constituents ≠ [] ∧
        ∃ h, ("CGU", h) ∈ defaultCatchment.cgu_hrus ∧ h ∈ defaultCatchment.hrus)) := by
  have hthm := C10_amended defaultCatchment (by decide) (by decide) (by decide)
    (fun con _ => ⟨LumpedConstituentRouting, rfl⟩) (fun h _ => ⟨Simhyd, rfl⟩)
    (fun h _ con _ cgu _ => ⟨EmcDwc, rfl⟩) _ rfl
  exact ⟨hthm.1 ["other"], hthm.2 "CGU"⟩

end Openwater
